import Mathlib

/-!
# Volume catalog and mount reference counting of the CephFS volume driver

A shallow embedding of `src/main.go`: the volume catalog (`Driver.volumes`),
`Driver.add`, and the request handlers `Create`, `Remove`, `Mount`, `Unmount`,
`List`, `Get` and `Path`.  The storage backend and the operating system are not part of the
program; every answer they give is an input of the call that asks for it.
-/

namespace CephFS

/-! ## Errors and answers of the outside world -/

/-- A `syscall.Errno` value. -/
abbrev Errno := Nat

/-- `os.IsNotExist` on a `syscall.Errno`: true for `ENOENT` (2). -/
def isNotExist (e : Errno) : Bool := e == 2

/-- `os.IsExist` on a `syscall.Errno`: true for `EEXIST` (17) and `ENOTEMPTY` (39). -/
def isExist (e : Errno) : Bool := e == 17 || e == 39

/-- The Go `error` values that the handlers can return. -/
inductive Error where
  /-- The error `add` builds at line 68: stored and given ID differ. -/
  | idMismatch (stored given : String)
  /-- The error `add` builds at line 73: stored and given mountPath differ. -/
  | mountPathMismatch (stored given : String)
  /-- The error `createMountInfo` builds at line 162: no base directory. -/
  | noBaseDir (dir : String)
  /-- The error `Get` builds at line 238: could not find the volume. -/
  | notFound (name : String)
  /-- An error returned by a `syscall` function. -/
  | sys (e : Errno)
  /-- An error returned by the `go-ceph` library. -/
  | ceph (code : Int)
deriving DecidableEq, Repr

/-- The two library items that `main.go` uses to build paths: `path.Join`
(applied to two elements) and `volume.DefaultDockerRootDirectory`. -/
structure Lib where
  join : String → String → String
  DefaultDockerRootDirectory : String

/-- The constant `baseDir` of `main.go`. -/
def baseDir : String := "/docker"

/-! ## Data model -/

/-- The `Volume` struct.  `mounts` is an `int64` in the source; a count moves
by one per request, so it stays far from the ends of the `int64` range and is
an integer here. -/
structure Volume where
  name : String
  ID : String
  mountPath : String
  mounts : Int
deriving DecidableEq, Repr

/-- The `Driver` struct: the map `volumes`.  The fields `debug`, `username`,
`secret` and `servers` feed only the log and the credential strings of the
mount system call. -/
structure Driver where
  volumes : String → Option Volume

namespace Driver

/-- The driver built by `newDriver`: `volumes: map[string]*Volume{}`. -/
def empty : Driver := ⟨fun _ => none⟩

/-- The map assignment `d.volumes[name] = v`. -/
def set (d : Driver) (name : String) (v : Volume) : Driver :=
  ⟨fun k => if k = name then some v else d.volumes k⟩

/-- The map deletion `delete(d.volumes, name)`. -/
def delete (d : Driver) (name : String) : Driver :=
  ⟨fun k => if k = name then none else d.volumes k⟩

/-- The method `Driver.add`: the new driver and the returned `error`
(`none` is `nil`). -/
def add (d : Driver) (name ID mountPath : String) (mounts : Int) : Driver × Option Error :=
  match d.volumes name with
  | some v =>
    -- d.volumes[name].mounts++
    let v1 : Volume := { v with mounts := v.mounts + 1 }
    let r2 : Volume × Option Error :=
      if v1.ID = "" then ({ v1 with ID := ID }, none)
      else if ID ≠ "" ∧ v1.ID ≠ ID then (v1, some (Error.idMismatch v1.ID ID))
      else (v1, none)
    let r3 : Volume × Option Error :=
      if r2.1.mountPath = "" then ({ r2.1 with mountPath := mountPath }, r2.2)
      else if mountPath ≠ "" ∧ r2.1.mountPath ≠ mountPath then
        (r2.1, some (Error.mountPathMismatch r2.1.mountPath mountPath))
      else r2
    (d.set name r3.1, r3.2)
  | none =>
    (d.set name { name := name, ID := ID, mountPath := mountPath, mounts := mounts }, none)

end Driver

/-! ## Calls to the outside world -/

/-- The answers of the storage backend inside `createMountInfo`. -/
structure SessionAnswers where
  /-- The error of `cephfs.CreateMount()`. -/
  createMount : Option Error
  /-- The error of `info.ReadDefaultConfigFile()`. -/
  readConfig : Option Error
  /-- `info.CurrentDir()` after the first `info.ChangeDir(baseDir)`. -/
  dir1 : String
  /-- The error of `info.MakeDir(baseDir, 0755)`. -/
  makeBase : Option Error
  /-- `info.CurrentDir()` after the second `info.ChangeDir(baseDir)`. -/
  dir2 : String

/-- The method `Driver.createMountInfo`: `none` when a session is returned,
the error otherwise. -/
def createMountInfo (s : SessionAnswers) : Option Error :=
  match s.createMount with
  | some e => some e
  | none =>
    match s.readConfig with
    | some e => some e
    | none =>
      if s.dir1 ≠ baseDir then
        match s.makeBase with
        | some e => some e
        | none => if s.dir2 ≠ baseDir then some (Error.noBaseDir baseDir) else none
      else none

/-- The answers of the operating system to the system calls of `Mount`. -/
structure MountAnswers where
  /-- The result of `syscall.Mkdir(mp, 0755)`. -/
  mkdir1 : Option Errno
  /-- The result of `syscall.Mkdir(volume.DefaultDockerRootDirectory, 0755)`. -/
  mkdirRoot : Option Errno
  /-- The result of the second `syscall.Mkdir(mp, 0755)`. -/
  mkdir2 : Option Errno
  /-- The result of `syscall.Mount` in `cephfsMount`. -/
  bind : Option Errno

/-- A call of a mount primitive, with the answer it got. -/
inductive Event where
  /-- `d.cephfsMount(mountPoint, cephPath)`. -/
  | bind (mountPoint cephPath : String) (res : Option Errno)
  /-- `d.cephfsUMount(mountPoint)`. -/
  | unbind (mountPoint : String) (res : Option Errno)
deriving DecidableEq, Repr

/-- What a handler gives back to the plugin transport. -/
inductive Reply where
  /-- A `nil` error, no value. -/
  | done
  /-- A `volume.MountResponse` with this `Mountpoint`. -/
  | mountpoint (mp : String)
  /-- A non-`nil` error. -/
  | failed (e : Error)
  /-- A run-time panic: nil pointer dereference. -/
  | panicked
deriving DecidableEq, Repr

/-- The result of a handler: the driver afterwards, the mount primitives it
called, and its reply. -/
structure Step where
  driver : Driver
  events : List Event
  reply : Reply

/-! ## Request handlers -/

/-- The directory creation of `Mount` (lines 283 to 308): `some e` when `Mount`
returns `e` there, `none` when it goes on to the bind decision. -/
def ensureDir (o : MountAnswers) : Option Errno :=
  match o.mkdir1 with
  | none => none
  | some e1 =>
    if isNotExist e1 then
      match o.mkdirRoot with
      | some e2 => some e2
      | none =>
        match o.mkdir2 with
        | some e3 => some e3
        | none => none
    else if ! isExist e1 then some e1
    else none

namespace Driver

/-- The handler `Driver.Create`. -/
def Create (d : Driver) (name : String) (s : SessionAnswers) (makeDir : Option Error) : Step :=
  match createMountInfo s with
  | some e => ⟨d, [], Reply.failed e⟩
  | none =>
    match d.add name "" "" 0 with
    | (d1, some e) => ⟨d1, [], Reply.failed e⟩
    | (d1, none) =>
      match makeDir with
      | some e => ⟨d1, [], Reply.failed e⟩
      | none => ⟨d1, [], Reply.done⟩

/-- The handler `Driver.Remove`. -/
def Remove (d : Driver) (name : String) (s : SessionAnswers) (removeDir : Option Error) : Step :=
  match createMountInfo s with
  | some e => ⟨d, [], Reply.failed e⟩
  | none =>
    match removeDir with
    | some e => ⟨d, [], Reply.failed e⟩
    | none =>
      match d.volumes name with
      | some _ => ⟨d.delete name, [], Reply.done⟩
      | none => ⟨d, [], Reply.done⟩

/-- The local path `Mount` works on: the computed mountpoint, or the stored
`mountPath` when `add` returned an error (line 281). -/
def mountTarget (L : Lib) (d : Driver) (name ID : String) : String :=
  let mp := L.join L.DefaultDockerRootDirectory name
  match d.add name ID mp 1 with
  | (d1, some _) =>
    match d1.volumes name with
    | some v => v.mountPath
    | none => mp
  | (_, none) => mp

/-- The handler `Driver.Mount`.  The catalog is changed by `add` before any
system call and no later line changes it again. -/
def Mount (L : Lib) (d : Driver) (name ID : String) (o : MountAnswers) : Step :=
  let mp := mountTarget L d name ID
  let d1 := (d.add name ID (L.join L.DefaultDockerRootDirectory name) 1).1
  match ensureDir o with
  | some e => ⟨d1, [], Reply.failed (Error.sys e)⟩
  | none =>
    match d1.volumes name with
    | none => ⟨d1, [], Reply.panicked⟩
    | some v =>
      if v.mounts ≤ 1 then
        match o.bind with
        | some e => ⟨d1, [Event.bind mp (L.join baseDir name) (some e)], Reply.failed (Error.sys e)⟩
        | none => ⟨d1, [Event.bind mp (L.join baseDir name) none], Reply.mountpoint mp⟩
      else ⟨d1, [], Reply.mountpoint mp⟩

/-- The handler `Driver.Unmount`.  For a name without record the read of
`d.volumes[r.Name].mounts` at line 333 dereferences a nil pointer: the handler
panics, the deferred `Unlock` runs, and the catalog is as it was. -/
def Unmount (L : Lib) (d : Driver) (name : String) (unbind : Option Errno) : Step :=
  match d.volumes name with
  | some v =>
    -- d.volumes[r.Name].mounts--
    let d1 := d.set name { v with mounts := v.mounts - 1 }
    if v.mounts - 1 = 0 then
      let mp := L.join L.DefaultDockerRootDirectory name
      match unbind with
      | some e => ⟨d1, [Event.unbind mp (some e)], Reply.failed (Error.sys e)⟩
      | none => ⟨d1, [Event.unbind mp none], Reply.done⟩
    else ⟨d1, [], Reply.done⟩
  | none =>
    -- d.volumes[r.Name] is nil: reading .mounts dereferences a nil pointer
    ⟨d, [], Reply.panicked⟩

end Driver

/-! ## Sequences of requests -/

/-- A request to the driver together with the answers of the outside world
to the calls the handler makes. -/
inductive Call where
  | create (name : String) (s : SessionAnswers) (makeDir : Option Error)
  | remove (name : String) (s : SessionAnswers) (removeDir : Option Error)
  | mount (name ID : String) (o : MountAnswers)
  | unmount (name ID : String) (unbind : Option Errno)

/-- The volume name a request is about. -/
def Call.name : Call → String
  | .create n _ _ => n
  | .remove n _ _ => n
  | .mount n _ _ => n
  | .unmount n _ _ => n

/-- One request handled by the driver. -/
def step (L : Lib) (d : Driver) : Call → Step
  | .create n s m => d.Create n s m
  | .remove n s r => d.Remove n s r
  | .mount n i o => d.Mount L n i o
  | .unmount n _ u => d.Unmount L n u

/-- The driver after a sequence of requests.  The handlers hold the exclusive
lock for their whole duration, so they run one after the other. -/
def run (L : Lib) (d : Driver) : List Call → Driver
  | [] => d
  | c :: cs => run L (step L d c).driver cs

/-- The refcount of a name: `mounts` of its record, if it has one. -/
def refcount (d : Driver) (name : String) : Option Int :=
  (d.volumes name).map Volume.mounts

/-! ## Guarded sequences and example values -/

/-- A request that is not an `Unmount` of a record whose refcount is below 1. -/
def unmountMatched (d : Driver) : Call → Bool
  | .unmount n _ _ =>
    match d.volumes n with
    | some v => decide (1 ≤ v.mounts)
    | none => true
  | _ => true

/-- Every `Unmount` of the sequence is made on a name that has no record or
whose record has refcount at least 1 at that moment. -/
def unmountsMatched (L : Lib) : Driver → List Call → Bool
  | _, [] => true
  | d, c :: cs => unmountMatched d c && unmountsMatched L (step L d c).driver cs

/-- Backend answers under which `createMountInfo` returns a session. -/
def okSession : SessionAnswers := ⟨none, none, "/docker", none, "/docker"⟩

/-- Operating system answers under which every system call of `Mount` succeeds. -/
def okMount : MountAnswers := ⟨none, none, none, none⟩

/-- Operating system answers under which the directory exists and the bind
fails with `ENOENT`. -/
def bindFails : MountAnswers := ⟨none, none, none, some 2⟩

/-- A library for the examples: on a clean root and a plain name, `path.Join`
puts a slash between them. -/
def plainLib : Lib := ⟨fun a b => a ++ "/" ++ b, "/var/lib/docker-volumes"⟩

/-- The request is a `Remove`. -/
def Call.isRemove : Call → Bool
  | .remove _ _ _ => true
  | _ => false

/-- The event is a call of `cephfsMount`. -/
def Event.isBind : Event → Bool
  | .bind _ _ _ => true
  | .unbind _ _ => false

/-- The event is a call of `cephfsUMount`. -/
def Event.isUnbind : Event → Bool
  | .bind _ _ _ => false
  | .unbind _ _ => true

/-- The results of the handlers along a sequence of requests, one per request. -/
def trace (L : Lib) (d : Driver) : List Call → List Step
  | [] => []
  | c :: cs => step L d c :: trace L (step L d c).driver cs

/-- Every stored local path is empty or the mountpoint computed from the name
of its record. -/
def PathsComputed (L : Lib) (d : Driver) : Prop :=
  ∀ n v, d.volumes n = some v →
    v.mountPath = "" ∨ v.mountPath = L.join L.DefaultDockerRootDirectory n

/-- Consecutive `Mount` requests for one name, one per client ID, each with
the answers of the operating system. -/
def mountCalls (name : String) (ms : List (String × MountAnswers)) : List Call :=
  ms.map (fun p => Call.mount name p.1 p.2)

/-- Consecutive `Unmount` requests for one name, one per client ID, on which
the unbind primitive succeeds when it is called. -/
def unmountCalls (name : String) (us : List String) : List Call :=
  us.map (fun i => Call.unmount name i none)

/-! ## The operating system: live binds per local path -/

/-- The number of live binds at each local path. -/
abbrev Binds := String → Nat

/-- The effect of a mount primitive on the live binds: a successful
`cephfsMount` adds one at its mountpoint, a successful `cephfsUMount` removes
one, a failed call changes nothing. -/
def osApply (b : Binds) : Event → Binds
  | .bind mp _ none => fun p => if p = mp then b p + 1 else b p
  | .unbind mp none => fun p => if p = mp then b p - 1 else b p
  | _ => b

/-- The driver together with the live binds of the operating system. -/
structure World where
  driver : Driver
  binds : Binds

/-- The empty catalog on a system without live binds. -/
def World.init : World := ⟨Driver.empty, fun _ => 0⟩

/-- One request handled by the driver, with the effect of its primitive calls
on the live binds. -/
def World.step (L : Lib) (w : World) (c : Call) : World :=
  ⟨(CephFS.step L w.driver c).driver, (CephFS.step L w.driver c).events.foldl osApply w.binds⟩

/-- The world after a sequence of requests. -/
def World.run (L : Lib) (w : World) : List Call → World
  | [] => w
  | c :: cs => World.run L (World.step L w c) cs

/-- A request of a run in which nothing goes wrong: `Create` is for a name
without record, `Remove` for a name without record or with refcount 0, `Mount`
gets past directory creation and its bind succeeds, `Unmount` is for a name
without record or with refcount at least 1 and its unbind succeeds. -/
def quietCall (d : Driver) : Call → Bool
  | .create n _ _ => (d.volumes n).isNone
  | .remove n _ _ =>
    match d.volumes n with
    | some v => decide (v.mounts = 0)
    | none => true
  | .mount _ _ o => (ensureDir o).isNone && o.bind.isNone
  | .unmount n _ u =>
    (match d.volumes n with
      | some v => decide (1 ≤ v.mounts)
      | none => true) && u.isNone

/-- Every request of the sequence is quiet in the state it is made in. -/
def quietRun (L : Lib) : Driver → List Call → Bool
  | _, [] => true
  | d, c :: cs => quietCall d c && quietRun L (step L d c).driver cs

/-- Operating system answers under which the unbind fails with `EBUSY`. -/
def unbindFails : Option Errno := some 16

/-- The local path a primitive call works on. -/
def Event.target : Event → String
  | .bind mp _ _ => mp
  | .unbind mp _ => mp

/-- The record of a name and the live binds at its mountpoint agree: the
refcount is not negative, the stored local path is empty or the mountpoint and
is the mountpoint when the refcount is positive, and there is one live bind
when the refcount is positive and none otherwise. -/
def SelfAgree (L : Lib) (n : String) (vol : Option Volume) (b : Nat) : Prop :=
  (∀ v, vol = some v →
      0 ≤ v.mounts ∧
        (v.mountPath = "" ∨ v.mountPath = L.join L.DefaultDockerRootDirectory n) ∧
        (0 < v.mounts → v.mountPath = L.join L.DefaultDockerRootDirectory n)) ∧
    b = match vol with
      | some v => if 0 < v.mounts then 1 else 0
      | none => 0

/-- The catalog and the live binds agree on every name of `S`, and there is
neither a record nor a live bind outside `S`. -/
def Agree (L : Lib) (S : String → Prop) (w : World) : Prop :=
  (∀ n v, w.driver.volumes n = some v → S n) ∧
    (∀ n, S n →
      SelfAgree L n (w.driver.volumes n) (w.binds (L.join L.DefaultDockerRootDirectory n))) ∧
    (∀ p, (∀ n, S n → L.join L.DefaultDockerRootDirectory n ≠ p) → w.binds p = 0)

/-! ## The read-only handlers -/

/-- The struct `volume.Volume` of the plugin helper, with the two fields the
driver fills. -/
structure volume.Volume where
  Name : String
  Mountpoint : String
deriving DecidableEq, Repr

/-- One answer of `dir.ReadDir()`: an entry with its name, a nil entry at the
end of the directory, or an error. -/
inductive ReadAnswer where
  | entry (name : String)
  | eod
  | error (e : Error)
deriving DecidableEq, Repr

/-- The answer is an entry. -/
def ReadAnswer.isEntry : ReadAnswer → Bool
  | .entry _ => true
  | _ => false

/-- The answers of the storage backend to the calls of `List`. -/
structure ListAnswers where
  session : SessionAnswers
  /-- The error of `info.OpenDir(baseDir)`. -/
  openDir : Option Error
  /-- The answers of the successive `dir.ReadDir()` calls. -/
  reads : List ReadAnswer

/-- What `List` gives back: a `volume.ListResponse` or an error. -/
inductive ListReply where
  | volumes (ls : List volume.Volume)
  | failed (e : Error)
deriving DecidableEq, Repr

/-- What `Get` gives back: a `volume.GetResponse` or an error. -/
inductive GetReply where
  | volume (v : volume.Volume)
  | failed (e : Error)
deriving DecidableEq, Repr

namespace Driver

/-- The loop of `List` (lines 212 to 224): it runs while `ReadDir` gives an
entry without error, and appends one volume per entry that is neither `.` nor
`..`, with the stored `mountPath` as mountpoint when the name has a record. -/
def listLoop (d : Driver) : List ReadAnswer → List volume.Volume → List volume.Volume
  | .entry name :: rest, ls =>
    if name ≠ "." ∧ name ≠ ".." then
      let v : volume.Volume :=
        match d.volumes name with
        | some r => ⟨name, r.mountPath⟩
        | none => ⟨name, ""⟩
      listLoop d rest (ls ++ [v])
    else listLoop d rest ls
  | _, ls => ls

/-- The handler `Driver.List`: the driver afterwards and the reply.  No line
of it writes to the catalog. -/
def List (d : Driver) (a : ListAnswers) : Driver × ListReply :=
  match createMountInfo a.session with
  | some e => (d, ListReply.failed e)
  | none =>
    match a.openDir with
    | some e => (d, ListReply.failed e)
    | none => (d, ListReply.volumes (d.listLoop a.reads []))

/-- The handler `Driver.Get`; `cwd` is the answer of `info.CurrentDir()` after
`info.ChangeDir(r.Name)`.  It reads nothing of the driver but `debug`. -/
def Get (L : Lib) (_d : Driver) (name : String) (s : SessionAnswers) (cwd : String) : GetReply :=
  match createMountInfo s with
  | some e => GetReply.failed e
  | none =>
    if cwd = baseDir then GetReply.failed (Error.notFound name)
    else GetReply.volume ⟨name, L.join L.DefaultDockerRootDirectory name⟩

/-- The handler `Driver.Path`: the `Mountpoint` of its response. -/
def Path (L : Lib) (_d : Driver) (name : String) : String :=
  L.join L.DefaultDockerRootDirectory name

end Driver

/-- The volume `List` reports for an entry name. -/
def listed (d : Driver) (name : String) : volume.Volume :=
  ⟨name, match d.volumes name with
    | some r => r.mountPath
    | none => ""⟩

/-- Operating system answers under which the mountpoint has no parent
(`ENOENT`) and the mount root is reported as existing (`EEXIST`). -/
def rootExists : MountAnswers := ⟨some 2, some 17, none, none⟩

/-- Operating system answers under which the mountpoint has no parent
(`ENOENT`), the mount root is created, and the mountpoint is then reported as
existing (`EEXIST`). -/
def mountpointAppears : MountAnswers := ⟨some 2, none, some 17, none⟩

/-- Backend answers under which `createMountInfo` fails at `CreateMount`. -/
def noSession : SessionAnswers := ⟨some (Error.ceph (-108)), none, "", none, ""⟩

/-- Operating system answers of a first `Mount` on a fresh host: the mount
root is missing (`ENOENT`), then it and the mountpoint are created, and the
bind succeeds. -/
def freshHost : MountAnswers := ⟨some 2, none, none, none⟩

/-- Operating system answers of a later `Mount` of the same name: the
mountpoint is there already (`EEXIST`). -/
def dirExists : MountAnswers := ⟨some 17, none, none, none⟩

end CephFS

/-! ## The catalog after `add` -/

namespace CephFS

theorem set_volumes_self (d : Driver) (n : String) (v : Volume) :
    (d.set n v).volumes n = some v := by simp [Driver.set]

theorem set_volumes_other (d : Driver) (n m : String) (v : Volume) (h : m ≠ n) :
    (d.set n v).volumes m = d.volumes m := by simp [Driver.set, h]

theorem add_volumes_other (d : Driver) (n i p : String) (k : Int) (m : String) (h : m ≠ n) :
    (d.add n i p k).1.volumes m = d.volumes m := by
  unfold Driver.add
  cases hv : d.volumes n <;> simp [Driver.set, h]

theorem add_volumes_absent (d : Driver) (n i p : String) (k : Int) (h : d.volumes n = none) :
    (d.add n i p k).1.volumes n = some ⟨n, i, p, k⟩ := by
  unfold Driver.add
  simp [h, Driver.set]

theorem add_volumes_known (d : Driver) (n i p : String) (k : Int) (v : Volume)
    (h : d.volumes n = some v) :
    (d.add n i p k).1.volumes n =
      some ⟨v.name, if v.ID = "" then i else v.ID,
        if v.mountPath = "" then p else v.mountPath, v.mounts + 1⟩ := by
  unfold Driver.add
  simp only [h, Driver.set, if_true]
  by_cases h1 : v.ID = "" <;> by_cases h2 : v.mountPath = "" <;> simp [h1, h2] <;>
    split_ifs <;> simp_all

theorem add_error_known (d : Driver) (n i p : String) (k : Int) (v : Volume)
    (h : d.volumes n = some v) :
    (d.add n i p k).2 =
      if v.mountPath ≠ "" ∧ p ≠ "" ∧ v.mountPath ≠ p then
        some (Error.mountPathMismatch v.mountPath p)
      else if v.ID ≠ "" ∧ i ≠ "" ∧ v.ID ≠ i then some (Error.idMismatch v.ID i)
      else none := by
  unfold Driver.add
  simp only [h]
  by_cases h1 : v.ID = "" <;> by_cases h2 : v.mountPath = "" <;> simp [h1, h2] <;>
    split_ifs <;> simp_all

theorem add_error_absent (d : Driver) (n i p : String) (k : Int) (h : d.volumes n = none) :
    (d.add n i p k).2 = none := by
  unfold Driver.add
  simp [h]

theorem add_error_empty (d : Driver) (n : String) (k : Int) : (d.add n "" "" k).2 = none := by
  cases h : d.volumes n with
  | none => exact add_error_absent d n "" "" k h
  | some v => rw [add_error_known d n "" "" k v h]; simp

/-! ## The catalog after each handler -/

theorem Create_driver (d : Driver) (n : String) (s : SessionAnswers) (m : Option Error) :
    (d.Create n s m).driver = if createMountInfo s = none then (d.add n "" "" 0).1 else d := by
  unfold Driver.Create
  cases hs : createMountInfo s with
  | some e => simp
  | none =>
    have he := add_error_empty d n 0
    rcases ha : d.add n "" "" 0 with ⟨d1, e⟩
    rw [ha] at he
    simp only at he
    subst he
    cases m <;> simp

theorem Remove_driver (d : Driver) (n : String) (s : SessionAnswers) (r : Option Error) :
    (d.Remove n s r).driver =
      if createMountInfo s = none ∧ r = none then d.delete n else d := by
  unfold Driver.Remove
  cases hs : createMountInfo s with
  | some e => simp
  | none =>
    cases r with
    | some e => simp
    | none =>
      cases hv : d.volumes n with
      | some v => simp
      | none =>
        simp only [and_self, if_true]
        cases d with
        | mk vols =>
          simp only [Driver.delete, Driver.mk.injEq]
          funext k
          by_cases hk : k = n
          · subst hk; simpa using hv
          · simp [hk]

theorem Mount_driver (L : Lib) (d : Driver) (n i : String) (o : MountAnswers) :
    (d.Mount L n i o).driver = (d.add n i (L.join L.DefaultDockerRootDirectory n) 1).1 := by
  unfold Driver.Mount
  simp only
  split
  · rfl
  · split
    · rfl
    · split
      · split <;> rfl
      · rfl

theorem Unmount_driver (L : Lib) (d : Driver) (n : String) (u : Option Errno) :
    (d.Unmount L n u).driver =
      match d.volumes n with
      | some v => d.set n { v with mounts := v.mounts - 1 }
      | none => d := by
  unfold Driver.Unmount
  cases hv : d.volumes n with
  | none => rfl
  | some v =>
    simp only
    split
    · split <;> rfl
    · rfl

/-- A handler leaves the records of the names it was not called on as they were. -/
theorem step_volumes_other (L : Lib) (d : Driver) (c : Call) (m : String) (h : m ≠ c.name) :
    (step L d c).driver.volumes m = d.volumes m := by
  cases c with
  | create n s mk =>
    simp only [step, Create_driver]
    split
    · exact add_volumes_other d n "" "" 0 m h
    · rfl
  | remove n s r =>
    simp only [step, Remove_driver]
    split
    · have h1 : m ≠ n := h
      simp [Driver.delete, h1]
    · rfl
  | mount n i o =>
    simp only [step, Mount_driver]
    exact add_volumes_other d n i _ 1 m h
  | unmount n i u =>
    simp only [step, Unmount_driver]
    cases hv : d.volumes n with
    | none => rfl
    | some v => exact set_volumes_other d n m _ h

/-! ## C1: sign of the refcount -/

/-- Every record of the catalog has a refcount of at least 0. -/
theorem step_refcount_nonneg (L : Lib) (d : Driver) (c : Call)
    (hd : ∀ n v, d.volumes n = some v → 0 ≤ v.mounts) (hc : unmountMatched d c = true) :
    ∀ n v, (step L d c).driver.volumes n = some v → 0 ≤ v.mounts := by
  intro n v hv
  by_cases hn : n = c.name
  · subst hn
    cases c with
    | create m s mk =>
      simp only [step, Create_driver, Call.name] at hv
      split at hv
      · cases hm : d.volumes m with
        | none =>
          rw [add_volumes_absent d m "" "" 0 hm] at hv
          cases hv
          exact le_refl 0
        | some w =>
          rw [add_volumes_known d m "" "" 0 w hm] at hv
          cases hv
          have := hd m w hm
          show 0 ≤ w.mounts + 1
          omega
      · exact hd _ v hv
    | remove m s r =>
      simp only [step, Remove_driver, Call.name] at hv
      split at hv
      · simp [Driver.delete] at hv
      · exact hd _ v hv
    | mount m i o =>
      simp only [step, Mount_driver, Call.name] at hv
      cases hm : d.volumes m with
      | none =>
        rw [add_volumes_absent d m i _ 1 hm] at hv
        cases hv
        exact Int.one_nonneg
      | some w =>
        rw [add_volumes_known d m i _ 1 w hm] at hv
        cases hv
        have := hd m w hm
        show 0 ≤ w.mounts + 1
        omega
    | unmount m i u =>
      simp only [step, Unmount_driver, Call.name] at hv
      cases hm : d.volumes m with
      | none =>
        rw [hm] at hv
        simp only at hv
        rw [hm] at hv
        cases hv
      | some w =>
        rw [hm] at hv
        simp only [set_volumes_self] at hv
        cases hv
        simp only [unmountMatched, hm, decide_eq_true_eq] at hc
        show 0 ≤ w.mounts - 1
        omega
  · rw [step_volumes_other L d c n hn] at hv
    exact hd n v hv

theorem run_refcount_nonneg (L : Lib) (calls : List Call) :
    ∀ d : Driver, (∀ n v, d.volumes n = some v → 0 ≤ v.mounts) →
      unmountsMatched L d calls = true →
      ∀ n v, (run L d calls).volumes n = some v → 0 ≤ v.mounts := by
  induction calls with
  | nil => intro d hd _; exact hd
  | cons c cs ih =>
    intro d hd hg
    simp only [unmountsMatched, Bool.and_eq_true] at hg
    exact ih _ (step_refcount_nonneg L d c hd hg.1) hg.2

/-- C1, as stated, fails: after `Create("x")` and `Unmount("x")` from the
empty catalog the record of `x` has refcount -1. -/
theorem refcount_negative_after_unmatched_unmount :
    refcount (run plainLib Driver.empty
      [Call.create "x" okSession none, Call.unmount "x" "c1" none]) "x" = some (-1) := by
  decide

/-- C1, amended: in every state reachable from the empty catalog by Create,
Mount, Unmount and Remove calls in which every Unmount is made on a name that
has no record or whose record has refcount at least 1, every catalog record
has refcount at least 0. -/
theorem refcount_nonneg_of_matched_unmounts (L : Lib) (calls : List Call)
    (h : unmountsMatched L Driver.empty calls = true) (n : String) (v : Volume)
    (hv : (run L Driver.empty calls).volumes n = some v) : 0 ≤ v.mounts :=
  run_refcount_nonneg L calls Driver.empty (fun _ _ h0 => by cases h0) h n v hv

theorem refcount_nonneg_of_matched_unmounts_witness :
    unmountsMatched plainLib Driver.empty
        [Call.mount "x" "c1" okMount, Call.mount "x" "c2" okMount,
          Call.unmount "x" "c1" none] = true ∧
      (run plainLib Driver.empty
        [Call.mount "x" "c1" okMount, Call.mount "x" "c2" okMount,
          Call.unmount "x" "c1" none]).volumes "x" =
        some ⟨"x", "c1", "/var/lib/docker-volumes/x", 1⟩ ∧
      (0 : Int) ≤ 1 :=
  ⟨by decide, by decide,
    refcount_nonneg_of_matched_unmounts plainLib
      [Call.mount "x" "c1" okMount, Call.mount "x" "c2" okMount, Call.unmount "x" "c1" none]
      (by decide) "x" ⟨"x", "c1", "/var/lib/docker-volumes/x", 1⟩ (by decide)⟩

/-! ## C3: when the mount primitives are called -/

theorem Mount_events (L : Lib) (d : Driver) (n i : String) (o : MountAnswers) :
    (d.Mount L n i o).events =
      if ensureDir o = none ∧
          ∃ v, (d.add n i (L.join L.DefaultDockerRootDirectory n) 1).1.volumes n = some v ∧
            v.mounts ≤ 1 then
        [Event.bind (d.mountTarget L n i) (L.join baseDir n) o.bind]
      else [] := by
  unfold Driver.Mount
  simp only
  cases hd : ensureDir o with
  | some e => simp
  | none =>
    cases hv : (d.add n i (L.join L.DefaultDockerRootDirectory n) 1).1.volumes n with
    | none => simp
    | some v =>
      by_cases hm : v.mounts ≤ 1
      · cases hb : o.bind <;> simp [hm]
      · simp [hm]

theorem Unmount_events (L : Lib) (d : Driver) (n : String) (u : Option Errno) :
    (d.Unmount L n u).events =
      if refcount d n = some 1 then [Event.unbind (L.join L.DefaultDockerRootDirectory n) u]
      else [] := by
  unfold Driver.Unmount refcount
  cases hv : d.volumes n with
  | none => simp
  | some v =>
    by_cases hm : v.mounts = 1
    · cases u <;> simp [hm]
    · have hm2 : ¬ (v.mounts - 1 = 0) := by omega
      simp [hm, hm2]

theorem Mount_refcount (L : Lib) (d : Driver) (n i : String) (o : MountAnswers) :
    refcount (d.Mount L n i o).driver n =
      some (match refcount d n with
        | some k => k + 1
        | none => 1) := by
  rw [Mount_driver]
  unfold refcount
  cases hv : d.volumes n with
  | none => rw [add_volumes_absent d n i _ 1 hv]; rfl
  | some v => rw [add_volumes_known d n i _ 1 v hv]; rfl

theorem Unmount_refcount (L : Lib) (d : Driver) (n : String) (u : Option Errno) :
    refcount (d.Unmount L n u).driver n = (refcount d n).map (fun k => k - 1) := by
  rw [Unmount_driver]
  unfold refcount
  cases hv : d.volumes n with
  | none => simp [hv]
  | some v => simp [set_volumes_self]

/-- C3, as stated, fails: after `Create("x")` and `Unmount("x")` the refcount
of `x` is -1, and the next `Mount("x")` calls the bind primitive while taking
the refcount from -1 to 0. -/
theorem bind_called_from_negative_refcount :
    refcount (run plainLib Driver.empty
        [Call.create "x" okSession none, Call.unmount "x" "c1" none]) "x" = some (-1) ∧
      ((run plainLib Driver.empty
        [Call.create "x" okSession none, Call.unmount "x" "c1" none]).Mount
          plainLib "x" "c1" okMount).events =
        [Event.bind "/var/lib/docker-volumes/x" "/docker/x" none] ∧
      refcount ((run plainLib Driver.empty
        [Call.create "x" okSession none, Call.unmount "x" "c1" none]).Mount
          plainLib "x" "c1" okMount).driver "x" = some 0 := by
  decide

/-- C3, amended: in every catalog state, a `Mount(name, id)` call invokes the
bind primitive only if the refcount of `name` after the increment of that call
is at most 1 (the name had no record and gets refcount 1, or had a refcount
`k ≤ 0` and gets `k + 1`), an `Unmount(name, id)` call invokes the unbind
primitive only if that call takes the refcount from 1 to 0, and `Mount` never
calls unbind nor `Unmount` bind. -/
theorem primitives_called_only_at_edge (L : Lib) (d : Driver) (name ID : String)
    (o : MountAnswers) (u : Option Errno) :
    (∀ e ∈ (d.Mount L name ID o).events, e.isBind = true ∧
        ((refcount d name = none ∧ refcount (d.Mount L name ID o).driver name = some 1) ∨
          ∃ k, k ≤ 0 ∧ refcount d name = some k ∧
            refcount (d.Mount L name ID o).driver name = some (k + 1))) ∧
      (∀ e ∈ (d.Unmount L name u).events, e.isUnbind = true ∧
        refcount d name = some 1 ∧ refcount (d.Unmount L name u).driver name = some 0) := by
  constructor
  · intro e he
    rw [Mount_events] at he
    split at he
    · rename_i hc
      obtain ⟨_, v, hv, hle⟩ := hc
      simp only [List.mem_singleton] at he
      subst he
      refine ⟨rfl, ?_⟩
      have hr := Mount_refcount L d name ID o
      have hv2 : refcount (d.Mount L name ID o).driver name = some v.mounts := by
        rw [Mount_driver]
        unfold refcount
        rw [hv]
        rfl
      rw [hv2] at hr
      cases hp : refcount d name with
      | none =>
        left
        refine ⟨rfl, ?_⟩
        rw [Mount_refcount, hp]
      | some k =>
        right
        rw [hp] at hr
        have hr2 : v.mounts = k + 1 := Option.some.inj hr
        refine ⟨k, by omega, rfl, ?_⟩
        rw [Mount_refcount, hp]
    · cases he
  · intro e he
    rw [Unmount_events] at he
    split at he
    · rename_i hc
      simp only [List.mem_singleton] at he
      subst he
      refine ⟨rfl, hc, ?_⟩
      rw [Unmount_refcount, hc]
      rfl
    · cases he

theorem primitives_called_only_at_edge_witness :
    ((Event.bind "/var/lib/docker-volumes/x" "/docker/x" none).isBind = true ∧
        ((refcount Driver.empty "x" = none ∧
            refcount (Driver.empty.Mount plainLib "x" "c1" okMount).driver "x" = some 1) ∨
          ∃ k, k ≤ 0 ∧ refcount Driver.empty "x" = some k ∧
            refcount (Driver.empty.Mount plainLib "x" "c1" okMount).driver "x" =
              some (k + 1))) ∧
      ((Event.unbind "/var/lib/docker-volumes/x" none).isUnbind = true ∧
        refcount (run plainLib Driver.empty [Call.mount "x" "c1" okMount]) "x" = some 1 ∧
        refcount ((run plainLib Driver.empty [Call.mount "x" "c1" okMount]).Unmount
          plainLib "x" none).driver "x" = some 0) :=
  ⟨(primitives_called_only_at_edge plainLib Driver.empty "x" "c1" okMount none).1
      (Event.bind "/var/lib/docker-volumes/x" "/docker/x" none) (by decide),
    (primitives_called_only_at_edge plainLib
      (run plainLib Driver.empty [Call.mount "x" "c1" okMount]) "x" "c1" okMount none).2
      (Event.unbind "/var/lib/docker-volumes/x" none) (by decide)⟩

/-! ## C5: `Unmount` of a name without record -/

/-- C5: `Unmount("ghost")` on the empty catalog does not return an error: it
panics on the nil record, leaving the catalog as it was and calling no
primitive. -/
theorem Unmount_unknown_panics :
    (Driver.empty.Unmount plainLib "ghost" none).reply = Reply.panicked ∧
      (Driver.empty.Unmount plainLib "ghost" none).events = [] ∧
      (Driver.empty.Unmount plainLib "ghost" none).driver.volumes "ghost" = none := by
  decide

/-! ## C6: a failing bind -/

/-- C6: for every catalog state and every `Mount(name, id)` call in which the
bind primitive is invoked and fails with `e`, `Mount` returns `e` and the
catalog afterwards is the catalog as `add` left it: the refcount of `name` is
the prior refcount plus 1, or 1 for a name that had no record. -/
theorem Mount_bind_failure_not_rolled_back (L : Lib) (d : Driver) (name ID : String)
    (o : MountAnswers) (mp cp : String) (e : Errno)
    (h : Event.bind mp cp (some e) ∈ (d.Mount L name ID o).events) :
    (d.Mount L name ID o).reply = Reply.failed (Error.sys e) ∧
      (d.Mount L name ID o).driver =
        (d.add name ID (L.join L.DefaultDockerRootDirectory name) 1).1 ∧
      refcount (d.Mount L name ID o).driver name =
        some (match refcount d name with
          | some k => k + 1
          | none => 1) := by
  refine ⟨?_, Mount_driver L d name ID o, Mount_refcount L d name ID o⟩
  unfold Driver.Mount at h ⊢
  simp only at h ⊢
  cases hd : ensureDir o with
  | some e1 => simp [hd] at h
  | none =>
    cases hv : (d.add name ID (L.join L.DefaultDockerRootDirectory name) 1).1.volumes name with
    | none => simp [hd, hv] at h
    | some v =>
      by_cases hm : v.mounts ≤ 1
      · cases hb : o.bind with
        | none => simp [hd, hv, hm, hb] at h
        | some e2 =>
          simp [hd, hv, hm, hb] at h
          simp [hm, h.2.2]
      · simp [hd, hv, hm] at h

theorem Mount_bind_failure_not_rolled_back_witness :
    Event.bind "/var/lib/docker-volumes/x" "/docker/x" (some 2) ∈
        (Driver.empty.Mount plainLib "x" "c1" bindFails).events ∧
      (Driver.empty.Mount plainLib "x" "c1" bindFails).reply = Reply.failed (Error.sys 2) ∧
      (Driver.empty.Mount plainLib "x" "c1" bindFails).driver =
        (Driver.empty.add "x" "c1" (plainLib.join plainLib.DefaultDockerRootDirectory "x") 1).1 ∧
      refcount (Driver.empty.Mount plainLib "x" "c1" bindFails).driver "x" =
        some (match refcount Driver.empty "x" with
          | some k => k + 1
          | none => 1) :=
  ⟨by decide, Mount_bind_failure_not_rolled_back plainLib Driver.empty "x" "c1" bindFails
    "/var/lib/docker-volumes/x" "/docker/x" 2 (by decide)⟩

/-! ## C7: the record after `Create` -/

/-- C7, as stated, fails: `Mount("ghost")` with a failing bind leaves a record
with refcount 1 and a local path; `Create("ghost")` then returns without error
and the record has refcount 2 and that local path. -/
theorem Create_done_on_known_name :
    ((run plainLib Driver.empty [Call.mount "ghost" "c1" bindFails]).Create
        "ghost" okSession none).reply = Reply.done ∧
      ((run plainLib Driver.empty [Call.mount "ghost" "c1" bindFails]).Create
        "ghost" okSession none).driver.volumes "ghost" =
        some ⟨"ghost", "c1", "/var/lib/docker-volumes/ghost", 2⟩ := by
  decide

/-- C7, amended: for every catalog state and every name that has no record,
when `Create(name)` returns without error the catalog holds a record for
`name` with refcount 0, an empty client ID and an empty local path; for a name
that has a record, the record is kept with its stored client ID and local
path. -/
theorem Create_done_record (d : Driver) (name : String) (s : SessionAnswers)
    (makeDir : Option Error) (h : (d.Create name s makeDir).reply = Reply.done) :
    (d.volumes name = none →
        (d.Create name s makeDir).driver.volumes name = some ⟨name, "", "", 0⟩) ∧
      (∀ v, d.volumes name = some v →
        ∃ w, (d.Create name s makeDir).driver.volumes name = some w ∧
          w.name = v.name ∧ w.ID = v.ID ∧ w.mountPath = v.mountPath) := by
  have hs : createMountInfo s = none := by
    unfold Driver.Create at h
    cases hs : createMountInfo s with
    | none => rfl
    | some e => simp [hs] at h
  rw [Create_driver, if_pos hs]
  constructor
  · intro hn
    exact add_volumes_absent d name "" "" 0 hn
  · intro v hv
    rw [add_volumes_known d name "" "" 0 v hv]
    refine ⟨_, rfl, rfl, ?_, ?_⟩
    · by_cases h1 : v.ID = "" <;> simp [h1]
    · by_cases h1 : v.mountPath = "" <;> simp [h1]

theorem Create_done_record_witness :
    (Driver.empty.Create "data" okSession none).reply = Reply.done ∧
      ((Driver.empty.volumes "data" = none →
        (Driver.empty.Create "data" okSession none).driver.volumes "data" =
          some ⟨"data", "", "", 0⟩) ∧
      (∀ v, Driver.empty.volumes "data" = some v →
        ∃ w, (Driver.empty.Create "data" okSession none).driver.volumes "data" = some w ∧
          w.name = v.name ∧ w.ID = v.ID ∧ w.mountPath = v.mountPath)) :=
  ⟨by decide, Create_done_record Driver.empty "data" okSession none (by decide)⟩

/-! ## C8: the refcount after `add` -/

/-- C8: on the catalog that holds `x` with refcount 0, `add("x", "", "", 0)`
leaves refcount 1, not 0 plus the given 0. -/
theorem add_known_ignores_delta :
    refcount (Driver.empty.add "x" "" "" 0).1 "x" = some 0 ∧
      refcount ((Driver.empty.add "x" "" "" 0).1.add "x" "" "" 0).1 "x" = some 1 := by
  decide

/-! ## C9: when `add` returns an error -/

/-- C9: for a name that has a record, `add` returns an error if and only if
the incoming client ID is non-empty and differs from a non-empty stored client
ID, or the incoming local path is non-empty and differs from a non-empty
stored local path; whether or not it returns an error, the refcount has gone
up by one, and a stored client ID or local path that was empty holds the
incoming value. -/
theorem add_known_error_iff (d : Driver) (name ID mountPath : String) (mounts : Int)
    (v : Volume) (h : d.volumes name = some v) :
    ((d.add name ID mountPath mounts).2 ≠ none ↔
        (ID ≠ "" ∧ v.ID ≠ "" ∧ v.ID ≠ ID) ∨
          (mountPath ≠ "" ∧ v.mountPath ≠ "" ∧ v.mountPath ≠ mountPath)) ∧
      ∃ w, (d.add name ID mountPath mounts).1.volumes name = some w ∧
        w.mounts = v.mounts + 1 ∧ (v.ID = "" → w.ID = ID) ∧
        (v.mountPath = "" → w.mountPath = mountPath) := by
  constructor
  · rw [add_error_known d name ID mountPath mounts v h]
    by_cases h1 : v.mountPath ≠ "" ∧ mountPath ≠ "" ∧ v.mountPath ≠ mountPath
    · simp only [if_pos h1]
      constructor
      · intro _
        exact Or.inr ⟨h1.2.1, h1.1, h1.2.2⟩
      · intro _ hc
        cases hc
    · simp only [if_neg h1]
      by_cases h2 : v.ID ≠ "" ∧ ID ≠ "" ∧ v.ID ≠ ID
      · simp only [if_pos h2]
        constructor
        · intro _
          exact Or.inl ⟨h2.2.1, h2.1, h2.2.2⟩
        · intro _ hc
          cases hc
      · simp only [if_neg h2]
        constructor
        · intro hc
          exact absurd rfl hc
        · intro hc
          rcases hc with ⟨a, b, c⟩ | ⟨a, b, c⟩
          · exact absurd ⟨b, a, c⟩ h2
          · exact absurd ⟨b, a, c⟩ h1
  · rw [add_volumes_known d name ID mountPath mounts v h]
    refine ⟨_, rfl, rfl, ?_, ?_⟩
    · intro h1
      simp [h1]
    · intro h1
      simp [h1]

theorem add_known_error_iff_witness :
    (Driver.empty.add "x" "c1" "/a" 1).1.volumes "x" = some ⟨"x", "c1", "/a", 1⟩ ∧
      ((((Driver.empty.add "x" "c1" "/a" 1).1.add "x" "c2" "/a" 1).2 ≠ none ↔
        (("c2" : String) ≠ "" ∧ (⟨"x", "c1", "/a", 1⟩ : Volume).ID ≠ "" ∧
            (⟨"x", "c1", "/a", 1⟩ : Volume).ID ≠ "c2") ∨
          (("/a" : String) ≠ "" ∧ (⟨"x", "c1", "/a", 1⟩ : Volume).mountPath ≠ "" ∧
            (⟨"x", "c1", "/a", 1⟩ : Volume).mountPath ≠ "/a")) ∧
      ∃ w, ((Driver.empty.add "x" "c1" "/a" 1).1.add "x" "c2" "/a" 1).1.volumes "x" = some w ∧
        w.mounts = (⟨"x", "c1", "/a", 1⟩ : Volume).mounts + 1 ∧
        ((⟨"x", "c1", "/a", 1⟩ : Volume).ID = "" → w.ID = "c2") ∧
        ((⟨"x", "c1", "/a", 1⟩ : Volume).mountPath = "" → w.mountPath = "/a")) :=
  ⟨by decide, add_known_error_iff (Driver.empty.add "x" "c1" "/a" 1).1 "x" "c2" "/a" 1
    ⟨"x", "c1", "/a", 1⟩ (by decide)⟩

/-! ## C10: stored client ID and local path -/

theorem add_keeps_stored (d : Driver) (n i p : String) (k : Int) (m : String) (v : Volume)
    (h : d.volumes m = some v) :
    ∃ w, (d.add n i p k).1.volumes m = some w ∧
      (v.ID ≠ "" → w.ID = v.ID) ∧ (v.mountPath ≠ "" → w.mountPath = v.mountPath) := by
  by_cases hm : m = n
  · subst hm
    rw [add_volumes_known d m i p k v h]
    refine ⟨_, rfl, ?_, ?_⟩
    · intro h1
      simp [h1]
    · intro h1
      simp [h1]
  · rw [add_volumes_other d n i p k m hm]
    exact ⟨v, h, fun _ => rfl, fun _ => rfl⟩

/-- C10: for every catalog state and every `Create`, `Mount` or `Unmount` call,
and every direct `add` call, every record is still there after the call, with
the same client ID if that was non-empty before and the same local path if that
was non-empty before. -/
theorem stored_fields_stable (L : Lib) (d : Driver) (m : String) (v : Volume)
    (h : d.volumes m = some v) :
    (∀ c : Call, c.isRemove = false →
        ∃ w, (step L d c).driver.volumes m = some w ∧
          (v.ID ≠ "" → w.ID = v.ID) ∧ (v.mountPath ≠ "" → w.mountPath = v.mountPath)) ∧
      (∀ (name ID mountPath : String) (mounts : Int),
        ∃ w, (d.add name ID mountPath mounts).1.volumes m = some w ∧
          (v.ID ≠ "" → w.ID = v.ID) ∧ (v.mountPath ≠ "" → w.mountPath = v.mountPath)) := by
  refine ⟨?_, fun n i p k => add_keeps_stored d n i p k m v h⟩
  intro c hc
  cases c with
  | create n s mk =>
    simp only [step, Create_driver]
    split
    · exact add_keeps_stored d n "" "" 0 m v h
    · exact ⟨v, h, fun _ => rfl, fun _ => rfl⟩
  | remove n s r => cases hc
  | mount n i o =>
    simp only [step, Mount_driver]
    exact add_keeps_stored d n i _ 1 m v h
  | unmount n i u =>
    simp only [step, Unmount_driver]
    by_cases hm : m = n
    · subst hm
      rw [h]
      simp only [set_volumes_self]
      exact ⟨_, rfl, fun _ => rfl, fun _ => rfl⟩
    · cases hn : d.volumes n with
      | none => exact ⟨v, h, fun _ => rfl, fun _ => rfl⟩
      | some w =>
        simp only
        rw [set_volumes_other d n m _ hm]
        exact ⟨v, h, fun _ => rfl, fun _ => rfl⟩

theorem stored_fields_stable_witness :
    (run plainLib Driver.empty [Call.mount "x" "c1" okMount]).volumes "x" =
        some ⟨"x", "c1", "/var/lib/docker-volumes/x", 1⟩ ∧
      ∃ w, (step plainLib (run plainLib Driver.empty [Call.mount "x" "c1" okMount])
          (Call.mount "x" "c2" okMount)).driver.volumes "x" = some w ∧
        ((⟨"x", "c1", "/var/lib/docker-volumes/x", 1⟩ : Volume).ID ≠ "" →
          w.ID = (⟨"x", "c1", "/var/lib/docker-volumes/x", 1⟩ : Volume).ID) ∧
        ((⟨"x", "c1", "/var/lib/docker-volumes/x", 1⟩ : Volume).mountPath ≠ "" →
          w.mountPath = (⟨"x", "c1", "/var/lib/docker-volumes/x", 1⟩ : Volume).mountPath) :=
  ⟨by decide,
    (stored_fields_stable plainLib (run plainLib Driver.empty [Call.mount "x" "c1" okMount])
      "x" ⟨"x", "c1", "/var/lib/docker-volumes/x", 1⟩ (by decide)).1
      (Call.mount "x" "c2" okMount) rfl⟩

/-! ## Stored local paths in reachable states -/

theorem step_pathsComputed (L : Lib) (d : Driver) (c : Call) (hd : PathsComputed L d) :
    PathsComputed L (step L d c).driver := by
  intro n v hv
  by_cases hn : n = c.name
  · subst hn
    cases c with
    | create m s mk =>
      simp only [step, Create_driver, Call.name] at hv ⊢
      split at hv
      · cases hm : d.volumes m with
        | none =>
          rw [add_volumes_absent d m "" "" 0 hm] at hv
          cases hv
          exact Or.inl rfl
        | some w =>
          rw [add_volumes_known d m "" "" 0 w hm] at hv
          cases hv
          rcases hd m w hm with h1 | h1
          · left; simp [h1]
          · by_cases h2 : w.mountPath = ""
            · left; simp [h2]
            · right; simp only [if_neg h2]; exact h1
      · exact hd _ v hv
    | remove m s r =>
      simp only [step, Remove_driver, Call.name] at hv ⊢
      split at hv
      · simp [Driver.delete] at hv
      · exact hd _ v hv
    | mount m i o =>
      simp only [step, Mount_driver, Call.name] at hv ⊢
      cases hm : d.volumes m with
      | none =>
        rw [add_volumes_absent d m i _ 1 hm] at hv
        cases hv
        exact Or.inr rfl
      | some w =>
        rw [add_volumes_known d m i _ 1 w hm] at hv
        cases hv
        right
        rcases hd m w hm with h1 | h1
        · simp [h1]
        · by_cases h2 : w.mountPath = ""
          · simp [h2]
          · simp only [if_neg h2]; exact h1
    | unmount m i u =>
      simp only [step, Unmount_driver, Call.name] at hv ⊢
      cases hm : d.volumes m with
      | none =>
        rw [hm] at hv
        simp only at hv
        rw [hm] at hv
        cases hv
      | some w =>
        rw [hm] at hv
        simp only [set_volumes_self] at hv
        cases hv
        exact hd m w hm
  · rw [step_volumes_other L d c n hn] at hv
    exact hd n v hv

theorem run_pathsComputed (L : Lib) (calls : List Call) :
    ∀ d : Driver, PathsComputed L d → PathsComputed L (run L d calls) := by
  induction calls with
  | nil => intro d hd; exact hd
  | cons c cs ih => intro d hd; exact ih _ (step_pathsComputed L d c hd)

theorem reachable_pathsComputed (L : Lib) (calls : List Call) :
    PathsComputed L (run L Driver.empty calls) :=
  run_pathsComputed L calls Driver.empty (fun _ _ h => by cases h)

theorem mountTarget_of_pathsComputed (L : Lib) (d : Driver) (n i : String)
    (hd : PathsComputed L d) :
    d.mountTarget L n i = L.join L.DefaultDockerRootDirectory n := by
  unfold Driver.mountTarget
  simp only
  cases hm : d.volumes n with
  | none =>
    have he := add_error_absent d n i (L.join L.DefaultDockerRootDirectory n) 1 hm
    rcases ha : d.add n i (L.join L.DefaultDockerRootDirectory n) 1 with ⟨d1, e⟩
    rw [ha] at he
    simp only at he
    subst he
    rfl
  | some w =>
    have hv := add_volumes_known d n i (L.join L.DefaultDockerRootDirectory n) 1 w hm
    rcases ha : d.add n i (L.join L.DefaultDockerRootDirectory n) 1 with ⟨d1, e⟩
    rw [ha] at hv
    simp only at hv
    cases e with
    | none => rfl
    | some e1 =>
      simp only [hv]
      rcases hd n w hm with h1 | h1
      · simp [h1]
      · by_cases h2 : w.mountPath = ""
        · simp [h2]
        · simp only [if_neg h2]; exact h1

theorem Mount_reply (L : Lib) (d : Driver) (n i : String) (o : MountAnswers) :
    (d.Mount L n i o).reply =
      match ensureDir o with
      | some e => Reply.failed (Error.sys e)
      | none =>
        match (d.add n i (L.join L.DefaultDockerRootDirectory n) 1).1.volumes n with
        | none => Reply.panicked
        | some v =>
          if v.mounts ≤ 1 then
            match o.bind with
            | some e => Reply.failed (Error.sys e)
            | none => Reply.mountpoint (d.mountTarget L n i)
          else Reply.mountpoint (d.mountTarget L n i) := by
  unfold Driver.Mount
  simp only
  cases hd : ensureDir o with
  | some e => rfl
  | none =>
    cases hv : (d.add n i (L.join L.DefaultDockerRootDirectory n) 1).1.volumes n with
    | none => rfl
    | some v =>
      by_cases hm : v.mounts ≤ 1
      · cases hb : o.bind <;> simp [hm]
      · simp [hm]

theorem Unmount_reply (L : Lib) (d : Driver) (n : String) (u : Option Errno) :
    (d.Unmount L n u).reply =
      match refcount d n with
      | none => Reply.panicked
      | some k =>
        if k = 1 then
          match u with
          | some e => Reply.failed (Error.sys e)
          | none => Reply.done
        else Reply.done := by
  unfold Driver.Unmount refcount
  cases hv : d.volumes n with
  | none => rfl
  | some v =>
    by_cases hm : v.mounts = 1
    · cases u <;> simp [hm]
    · have hm2 : ¬ (v.mounts - 1 = 0) := by omega
      simp [hm, hm2]

/-! ## C4: mounts followed by unmounts -/

theorem map_range_succ {α : Type} (f : Nat → α) (k : Nat) :
    (List.range (k + 1)).map f = f 0 :: (List.range k).map (fun i => f (i + 1)) := by
  rw [List.range_succ_eq_map, List.map_cons, List.map_map]
  rfl

theorem trace_append (L : Lib) (xs ys : List Call) :
    ∀ d : Driver, trace L d (xs ++ ys) = trace L d xs ++ trace L (run L d xs) ys := by
  induction xs with
  | nil => intro d; rfl
  | cons c cs ih =>
    intro d
    show step L d c :: trace L (step L d c).driver (cs ++ ys) = _
    rw [ih]
    rfl

theorem Mount_ok (L : Lib) (d : Driver) (n i : String) (o : MountAnswers)
    (hd : PathsComputed L d) (he : ensureDir o = none) (h2 : o.bind = none) :
    (d.Mount L n i o).reply = Reply.mountpoint (L.join L.DefaultDockerRootDirectory n) ∧
      (d.Mount L n i o).events =
        if (match refcount d n with
            | some k => k + 1
            | none => 1) ≤ 1
        then [Event.bind (L.join L.DefaultDockerRootDirectory n) (L.join baseDir n) none]
        else [] := by
  have ht := mountTarget_of_pathsComputed L d n i hd
  rw [Mount_reply, Mount_events, he, ht, h2]
  unfold refcount
  cases hm : d.volumes n with
  | none =>
    rw [add_volumes_absent d n i _ 1 hm]
    simp
  | some w =>
    rw [add_volumes_known d n i _ 1 w hm]
    by_cases hw : w.mounts + 1 ≤ 1 <;> simp [hw]

theorem trace_mounts (L : Lib) (n : String) (ms : List (String × MountAnswers)) :
    ∀ (d : Driver) (r : Int), PathsComputed L d → refcount d n = some r → 1 ≤ r →
      (∀ p ∈ ms, ensureDir p.2 = none ∧ p.2.bind = none) →
      (trace L d (mountCalls n ms)).map Step.reply =
          List.replicate ms.length
            (Reply.mountpoint (L.join L.DefaultDockerRootDirectory n)) ∧
        (trace L d (mountCalls n ms)).map (fun s => refcount s.driver n) =
          (List.range ms.length).map (fun (i : Nat) => some (r + (i : Int) + 1)) ∧
        (trace L d (mountCalls n ms)).map Step.events = List.replicate ms.length [] ∧
        refcount (run L d (mountCalls n ms)) n = some (r + (ms.length : Int)) := by
  induction ms with
  | nil =>
    intro d r _ hr _ _
    simp [mountCalls, trace, run, hr]
  | cons p ps ih =>
    intro d r hd hr h1 hok
    have hp := hok p (List.mem_cons_self p ps)
    have hok2 : ∀ q ∈ ps, ensureDir q.2 = none ∧ q.2.bind = none :=
      fun q hq => hok q (List.mem_cons_of_mem p hq)
    have hs := Mount_ok L d n p.1 p.2 hd hp.1 hp.2
    have hrc := Mount_refcount L d n p.1 p.2
    rw [hr] at hs hrc
    have hne : ¬ (r + 1 ≤ 1) := by omega
    simp only [if_neg hne] at hs
    simp only at hrc
    have hd2 : PathsComputed L (d.Mount L n p.1 p.2).driver :=
      step_pathsComputed L d (Call.mount n p.1 p.2) hd
    obtain ⟨i1, i2, i3, i4⟩ := ih (d.Mount L n p.1 p.2).driver (r + 1) hd2 hrc (by omega) hok2
    have hc : mountCalls n (p :: ps) = Call.mount n p.1 p.2 :: mountCalls n ps := rfl
    rw [hc]
    simp only [trace, run, step, List.map_cons, List.length_cons]
    refine ⟨?_, ?_, ?_, ?_⟩
    · rw [i1, hs.1, List.replicate_succ]
    · rw [i2, hrc, map_range_succ]
      refine congrArg₂ List.cons ?_ ?_
      · simp
      · apply List.map_congr_left
        intro a _
        simp only [Option.some.injEq]
        push_cast
        ring
    · rw [i3, hs.2, List.replicate_succ]
    · rw [i4]
      simp only [Option.some.injEq]
      push_cast
      ring

theorem trace_unmounts (L : Lib) (n : String) (us : List String) :
    ∀ (d : Driver) (r : Int), refcount d n = some r →
      (trace L d (unmountCalls n us)).map Step.reply = List.replicate us.length Reply.done ∧
        (trace L d (unmountCalls n us)).map (fun s => refcount s.driver n) =
          (List.range us.length).map (fun (j : Nat) => some (r - ((j : Int) + 1))) ∧
        (trace L d (unmountCalls n us)).map Step.events =
          (List.range us.length).map (fun (j : Nat) =>
            if r - (j : Int) = 1 then
              [Event.unbind (L.join L.DefaultDockerRootDirectory n) none]
            else []) := by
  induction us with
  | nil =>
    intro d r _
    simp [unmountCalls, trace]
  | cons i is ih =>
    intro d r hr
    have hrc := Unmount_refcount L d n none
    have hre := Unmount_reply L d n none
    have hev := Unmount_events L d n none
    rw [hr] at hrc hre hev
    simp only [Option.map_some'] at hrc
    have hre2 : (d.Unmount L n none).reply = Reply.done := by
      rw [hre]
      by_cases h1 : r = 1 <;> simp [h1]
    obtain ⟨i1, i2, i3⟩ := ih (d.Unmount L n none).driver (r - 1) hrc
    have hc : unmountCalls n (i :: is) = Call.unmount n i none :: unmountCalls n is := rfl
    rw [hc]
    simp only [trace, step, List.map_cons, List.length_cons]
    refine ⟨?_, ?_, ?_⟩
    · rw [i1, hre2, List.replicate_succ]
    · rw [i2, hrc, map_range_succ]
      refine congrArg₂ List.cons ?_ ?_
      · simp
      · apply List.map_congr_left
        intro a _
        simp only [Option.some.injEq]
        push_cast
        ring
    · rw [i3, hev, map_range_succ]
      refine congrArg₂ List.cons ?_ ?_
      · simp
      · apply List.map_congr_left
        intro a _
        have : (r - 1 - (a : Int) = 1) ↔ (r - ((a + 1 : Nat) : Int) = 1) := by
          push_cast
          constructor <;> intro h <;> omega
        simp only [this]

/-- C4: in a state reached from the empty catalog where `name` has no record
or refcount 0, `k ≥ 1` consecutive `Mount(name, id)` calls (any client IDs) on
which directory creation gets through (the mountpoint is created, or is there
already, or is created after the mount root) and bind succeeds, followed by
`k` `Unmount(name, id)` calls on which unbind succeeds: every `Mount` returns
the mountpoint computed from the name, the refcount after the i-th `Mount` is
`i`, only the first `Mount` calls bind; every `Unmount` returns without error,
the refcount after the j-th `Unmount` is `k - j`, and only the last `Unmount`
calls unbind, on that same mountpoint. -/
theorem mounts_then_unmounts (L : Lib) (pre : List Call) (name : String)
    (ms : List (String × MountAnswers)) (us : List String)
    (hk : 1 ≤ ms.length) (hlen : us.length = ms.length)
    (hok : ∀ p ∈ ms, ensureDir p.2 = none ∧ p.2.bind = none)
    (h0 : refcount (run L Driver.empty pre) name = none ∨
      refcount (run L Driver.empty pre) name = some 0) :
    (trace L (run L Driver.empty pre) (mountCalls name ms ++ unmountCalls name us)).map
        Step.reply =
        List.replicate ms.length
            (Reply.mountpoint (L.join L.DefaultDockerRootDirectory name)) ++
          List.replicate ms.length Reply.done ∧
      (trace L (run L Driver.empty pre) (mountCalls name ms ++ unmountCalls name us)).map
        (fun s => refcount s.driver name) =
        (List.range ms.length).map (fun (i : Nat) => some ((i : Int) + 1)) ++
          (List.range ms.length).map
            (fun (j : Nat) => some ((ms.length : Int) - ((j : Int) + 1))) ∧
      (trace L (run L Driver.empty pre) (mountCalls name ms ++ unmountCalls name us)).map
        Step.events =
        (List.range ms.length).map (fun (i : Nat) =>
            if i = 0 then
              [Event.bind (L.join L.DefaultDockerRootDirectory name) (L.join baseDir name) none]
            else []) ++
          (List.range ms.length).map (fun (j : Nat) =>
            if j + 1 = ms.length then
              [Event.unbind (L.join L.DefaultDockerRootDirectory name) none]
            else []) := by
  cases ms with
  | nil => simp at hk
  | cons p ps =>
    have hd := reachable_pathsComputed L pre
    generalize run L Driver.empty pre = d at hd h0 ⊢
    have hp := hok p (List.mem_cons_self p ps)
    have hok2 : ∀ q ∈ ps, ensureDir q.2 = none ∧ q.2.bind = none :=
      fun q hq => hok q (List.mem_cons_of_mem p hq)
    have hs := Mount_ok L d name p.1 p.2 hd hp.1 hp.2
    have hrc := Mount_refcount L d name p.1 p.2
    have hev : (d.Mount L name p.1 p.2).events =
        [Event.bind (L.join L.DefaultDockerRootDirectory name) (L.join baseDir name) none] := by
      rw [hs.2]
      rcases h0 with h0 | h0 <;> simp [h0]
    have hrc1 : refcount (d.Mount L name p.1 p.2).driver name = some 1 := by
      rw [hrc]
      rcases h0 with h0 | h0 <;> simp [h0]
    have hd2 : PathsComputed L (d.Mount L name p.1 p.2).driver :=
      step_pathsComputed L d (Call.mount name p.1 p.2) hd
    obtain ⟨m1, m2, m3, m4⟩ :=
      trace_mounts L name ps (d.Mount L name p.1 p.2).driver 1 hd2 hrc1 (le_refl 1) hok2
    obtain ⟨u1, u2, u3⟩ :=
      trace_unmounts L name us _ _ m4
    have hc : mountCalls name (p :: ps) = Call.mount name p.1 p.2 :: mountCalls name ps := rfl
    rw [trace_append, hc]
    simp only [trace, run, step, List.map_append, List.map_cons, List.length_cons]
    rw [m1, m2, m3, u1, u2, u3, hs.1, hev]
    simp only [List.length_cons] at hlen
    rw [hlen]
    refine ⟨?_, ?_, ?_⟩
    · rfl
    · rw [map_range_succ (fun (i : Nat) => some ((i : Int) + 1))]
      refine congrArg₂ (· ++ ·) (congrArg₂ List.cons (by simpa using hrc1) ?_) ?_
      · apply List.map_congr_left
        intro a _
        simp only [Option.some.injEq]
        push_cast
        ring
      · apply List.map_congr_left
        intro a _
        simp only [Option.some.injEq]
        push_cast
        ring
    · rw [map_range_succ (fun (i : Nat) => if i = 0 then
        [Event.bind (L.join L.DefaultDockerRootDirectory name) (L.join baseDir name) none]
        else [])]
      refine congrArg₂ (· ++ ·) (congrArg₂ List.cons (by simp) ?_) ?_
      · have hz : ∀ a ∈ List.range ps.length,
            (fun (i : Nat) => if i + 1 = 0 then
              [Event.bind (L.join L.DefaultDockerRootDirectory name) (L.join baseDir name) none]
              else []) a = (fun _ => ([] : List Event)) a := by
          intro a _
          simp
        rw [List.map_congr_left hz, List.map_const', List.length_range]
      · apply List.map_congr_left
        intro a _
        have : ((1 : Int) + (ps.length : Int) - (a : Int) = 1) ↔ (a + 1 = ps.length + 1) := by
          constructor <;> intro h <;> omega
        simp only [this]

theorem mounts_then_unmounts_witness :
    (trace plainLib (run plainLib Driver.empty [Call.create "data" okSession none])
        (mountCalls "data" [("c1", freshHost), ("c2", dirExists)] ++
          unmountCalls "data" ["c1", "c2"])).map Step.reply =
        [Reply.mountpoint "/var/lib/docker-volumes/data",
          Reply.mountpoint "/var/lib/docker-volumes/data", Reply.done, Reply.done] ∧
      (trace plainLib (run plainLib Driver.empty [Call.create "data" okSession none])
        (mountCalls "data" [("c1", freshHost), ("c2", dirExists)] ++
          unmountCalls "data" ["c1", "c2"])).map (fun s => refcount s.driver "data") =
        [some 1, some 2, some 1, some 0] ∧
      (trace plainLib (run plainLib Driver.empty [Call.create "data" okSession none])
        (mountCalls "data" [("c1", freshHost), ("c2", dirExists)] ++
          unmountCalls "data" ["c1", "c2"])).map Step.events =
        [[Event.bind "/var/lib/docker-volumes/data" "/docker/data" none], [], [],
          [Event.unbind "/var/lib/docker-volumes/data" none]] :=
  mounts_then_unmounts plainLib [Call.create "data" okSession none] "data"
    [("c1", freshHost), ("c2", dirExists)] ["c1", "c2"] (by decide) (by decide) (by decide)
    (by decide)

/-! ## C2: refcount and live binds -/

/-- C2, as stated, fails: after `Mount("x")` with a failing bind the record of
`x` has refcount 1 and no live bind at its local path; after `Mount("y")` and
`Unmount("y")` with a failing unbind the record of `y` has refcount 0 and a
live bind at its local path. -/
theorem refcount_and_binds_disagree :
    (World.run plainLib World.init [Call.mount "x" "c1" bindFails]).driver.volumes "x" =
        some ⟨"x", "c1", "/var/lib/docker-volumes/x", 1⟩ ∧
      (World.run plainLib World.init [Call.mount "x" "c1" bindFails]).binds
        "/var/lib/docker-volumes/x" = 0 ∧
      (World.run plainLib World.init
        [Call.mount "y" "c1" okMount, Call.unmount "y" "c1" unbindFails]).driver.volumes "y" =
        some ⟨"y", "c1", "/var/lib/docker-volumes/y", 0⟩ ∧
      (World.run plainLib World.init
        [Call.mount "y" "c1" okMount, Call.unmount "y" "c1" unbindFails]).binds
        "/var/lib/docker-volumes/y" = 1 := by
  decide

theorem Create_events (d : Driver) (n : String) (s : SessionAnswers) (m : Option Error) :
    (d.Create n s m).events = [] := by
  unfold Driver.Create
  cases createMountInfo s with
  | some e => rfl
  | none =>
    simp only
    rcases d.add n "" "" 0 with ⟨d1, e⟩
    cases e with
    | some e1 => rfl
    | none => cases m <;> rfl

theorem Remove_events (d : Driver) (n : String) (s : SessionAnswers) (r : Option Error) :
    (d.Remove n s r).events = [] := by
  unfold Driver.Remove
  cases createMountInfo s with
  | some e => rfl
  | none =>
    cases r with
    | some e => rfl
    | none => cases d.volumes n <;> rfl

theorem step_events_target (L : Lib) (d : Driver) (c : Call) (hd : PathsComputed L d) :
    ∀ e ∈ (step L d c).events, e.target = L.join L.DefaultDockerRootDirectory c.name := by
  intro e he
  cases c with
  | create n s m => simp [step, Create_events] at he
  | remove n s r => simp [step, Remove_events] at he
  | mount n i o =>
    simp only [step, Mount_events, mountTarget_of_pathsComputed L d n i hd] at he
    split at he
    · simp only [List.mem_singleton] at he
      subst he
      rfl
    · cases he
  | unmount n i u =>
    simp only [step, Unmount_events] at he
    split at he
    · simp only [List.mem_singleton] at he
      subst he
      rfl
    · cases he

theorem osApply_other (b : Binds) (e : Event) (p : String) (h : p ≠ e.target) :
    osApply b e p = b p := by
  cases e with
  | bind mp cp r =>
    cases r with
    | none => simp only [osApply]; exact if_neg h
    | some x => rfl
  | unbind mp r =>
    cases r with
    | none => simp only [osApply]; exact if_neg h
    | some x => rfl

theorem foldl_osApply_other (es : List Event) (q p : String) (hp : p ≠ q) :
    ∀ b : Binds, (∀ e ∈ es, e.target = q) → (es.foldl osApply b) p = b p := by
  induction es with
  | nil => intro b _; rfl
  | cons e es ih =>
    intro b h
    rw [List.foldl_cons, ih (osApply b e) (fun x hx => h x (List.mem_cons_of_mem e hx))]
    exact osApply_other b e p (by rw [h e (List.mem_cons_self e es)]; exact hp)

theorem step_binds_other (L : Lib) (w : World) (c : Call) (hd : PathsComputed L w.driver)
    (p : String) (hp : p ≠ L.join L.DefaultDockerRootDirectory c.name) :
    (World.step L w c).binds p = w.binds p :=
  foldl_osApply_other _ _ p hp w.binds (step_events_target L w.driver c hd)

theorem step_selfAgree (L : Lib) (w : World) (c : Call) (hd : PathsComputed L w.driver)
    (hq : quietCall w.driver c = true)
    (h : SelfAgree L c.name (w.driver.volumes c.name)
      (w.binds (L.join L.DefaultDockerRootDirectory c.name))) :
    SelfAgree L c.name ((World.step L w c).driver.volumes c.name)
      ((World.step L w c).binds (L.join L.DefaultDockerRootDirectory c.name)) := by
  cases c with
  | create n s m =>
    simp only [quietCall, Option.isNone_iff_eq_none] at hq
    simp only [Call.name] at h ⊢
    simp only [World.step, step, Create_events, Create_driver, List.foldl_nil]
    split
    · rw [add_volumes_absent w.driver n "" "" 0 hq]
      rw [hq] at h
      refine ⟨?_, ?_⟩
      · intro v hv
        cases hv
        exact ⟨le_refl 0, Or.inl rfl, fun hc => absurd hc (lt_irrefl 0)⟩
      · simpa using h.2
    · exact h
  | remove n s r =>
    simp only [Call.name] at h ⊢
    simp only [World.step, step, Remove_events, Remove_driver, List.foldl_nil]
    split
    · have hb : w.binds (L.join L.DefaultDockerRootDirectory n) = 0 := by
        rw [h.2]
        cases hv : w.driver.volumes n with
        | none => rfl
        | some v =>
          simp only [quietCall, hv, decide_eq_true_eq] at hq
          simp [hq]
      refine ⟨?_, ?_⟩
      · intro v hv
        simp [Driver.delete] at hv
      · simpa [Driver.delete] using hb
    · exact h
  | mount n i o =>
    simp only [quietCall, Bool.and_eq_true, Option.isNone_iff_eq_none] at hq
    simp only [Call.name] at h ⊢
    have hev := (Mount_ok L w.driver n i o hd hq.1 hq.2).2
    simp only [World.step, step, Mount_driver, hev]
    unfold refcount
    cases hv : w.driver.volumes n with
    | none =>
      rw [hv] at h
      rw [add_volumes_absent w.driver n i _ 1 hv]
      refine ⟨?_, ?_⟩
      · intro v hv2
        cases hv2
        exact ⟨Int.one_nonneg, Or.inr rfl, fun _ => rfl⟩
      · have hb : w.binds (L.join L.DefaultDockerRootDirectory n) = 0 := h.2
        simp [osApply, hb]
    | some v =>
      rw [hv] at h
      obtain ⟨h1, h2⟩ := h
      obtain ⟨a1, a2, a3⟩ := h1 v rfl
      rw [add_volumes_known w.driver n i _ 1 v hv]
      refine ⟨?_, ?_⟩
      · intro v2 hv2
        cases hv2
        refine ⟨by show 0 ≤ v.mounts + 1; omega, Or.inr ?_, fun _ => ?_⟩ <;>
        · show (if v.mountPath = "" then _ else v.mountPath) = _
          rcases a2 with a2 | a2
          · simp [a2]
          · by_cases hm : v.mountPath = ""
            · simp [hm]
            · simp only [if_neg hm]; exact a2
      · simp only [Option.map_some']
        have hpos : 0 < v.mounts + 1 := by omega
        by_cases hz : v.mounts + 1 ≤ 1
        · have hv0 : ¬ (0 < v.mounts) := by omega
          simp only [hv0, if_false] at h2
          simp [hz, hpos, osApply, h2]
        · have hv0 : 0 < v.mounts := by omega
          simp only [hv0, if_true] at h2
          simp [hz, hpos, h2]
  | unmount n i u =>
    simp only [quietCall, Bool.and_eq_true, Option.isNone_iff_eq_none] at hq
    simp only [Call.name] at h ⊢
    obtain ⟨hq1, hq2⟩ := hq
    subst hq2
    simp only [World.step, step, Unmount_driver, Unmount_events]
    unfold refcount
    cases hv : w.driver.volumes n with
    | none =>
      rw [hv] at h
      simp only [Option.map_none', hv]
      simpa using h
    | some v =>
      rw [hv] at h hq1
      simp only [decide_eq_true_eq] at hq1
      obtain ⟨h1, h2⟩ := h
      obtain ⟨a1, a2, a3⟩ := h1 v rfl
      have hv0 : 0 < v.mounts := by omega
      simp only [hv0, if_true] at h2
      simp only [set_volumes_self, Option.map_some']
      refine ⟨?_, ?_⟩
      · intro v2 hv2
        cases hv2
        exact ⟨by show 0 ≤ v.mounts - 1; omega, a2, fun _ => a3 hv0⟩
      · by_cases hz : v.mounts = 1
        · have hn0 : ¬ (0 < v.mounts - 1) := by omega
          simp [hz, osApply, h2]
        · have hn0 : 0 < v.mounts - 1 := by omega
          simp [hz, hn0, h2]

theorem step_agree (L : Lib) (S : String → Prop)
    (hinj : ∀ a b, S a → S b →
      L.join L.DefaultDockerRootDirectory a = L.join L.DefaultDockerRootDirectory b → a = b)
    (w : World) (c : Call) (hS : S c.name) (hq : quietCall w.driver c = true)
    (hw : Agree L S w) : Agree L S (World.step L w c) := by
  obtain ⟨ha, hb, hc⟩ := hw
  have hd : PathsComputed L w.driver := fun n v hv => ((hb n (ha n v hv)).1 v hv).2.1
  refine ⟨?_, ?_, ?_⟩
  · intro n v hv
    by_cases hn : n = c.name
    · rw [hn]
      exact hS
    · have hv2 : (step L w.driver c).driver.volumes n = some v := hv
      rw [step_volumes_other L w.driver c n hn] at hv2
      exact ha n v hv2
  · intro n hn
    by_cases h : n = c.name
    · rw [h]
      exact step_selfAgree L w c hd hq (hb c.name hS)
    · have hp : L.join L.DefaultDockerRootDirectory n ≠
          L.join L.DefaultDockerRootDirectory c.name := fun e => h (hinj n c.name hn hS e)
      rw [step_binds_other L w c hd _ hp]
      show SelfAgree L n ((step L w.driver c).driver.volumes n) _
      rw [step_volumes_other L w.driver c n h]
      exact hb n hn
  · intro p hp
    rw [step_binds_other L w c hd p (fun e => hp c.name hS e.symm)]
    exact hc p hp

theorem run_agree (L : Lib) (S : String → Prop)
    (hinj : ∀ a b, S a → S b →
      L.join L.DefaultDockerRootDirectory a = L.join L.DefaultDockerRootDirectory b → a = b)
    (calls : List Call) :
    ∀ w : World, (∀ c ∈ calls, S c.name) → quietRun L w.driver calls = true →
      Agree L S w → Agree L S (World.run L w calls) := by
  induction calls with
  | nil => intro w _ _ hw; exact hw
  | cons c cs ih =>
    intro w hS hq hw
    simp only [quietRun, Bool.and_eq_true] at hq
    exact ih (World.step L w c) (fun x hx => hS x (List.mem_cons_of_mem c hx)) hq.2
      (step_agree L S hinj w c (hS c (List.mem_cons_self c cs)) hq.1 hw)

/-- C2, amended: in every state reachable from the empty catalog by Create,
Mount, Unmount and Remove calls in which nothing goes wrong (`Create` is made
on names without record, `Remove` on names without record or with refcount 0,
`Unmount` on names without record or with refcount at least 1, every `Mount`
gets past directory creation, and every bind and unbind succeeds) and whose
names have distinct, non-empty mountpoints: a record with refcount above 0 has
exactly one live bind at its local path, and a record with refcount 0 has no
live bind at its local path. -/
theorem binds_agree_of_quiet (L : Lib) (calls : List Call)
    (hq : quietRun L Driver.empty calls = true)
    (hinj : ∀ c1 ∈ calls, ∀ c2 ∈ calls,
      L.join L.DefaultDockerRootDirectory c1.name =
        L.join L.DefaultDockerRootDirectory c2.name → c1.name = c2.name)
    (hne : ∀ c ∈ calls, L.join L.DefaultDockerRootDirectory c.name ≠ "")
    (n : String) (v : Volume)
    (hv : (World.run L World.init calls).driver.volumes n = some v) :
    (0 < v.mounts → (World.run L World.init calls).binds v.mountPath = 1) ∧
      (v.mounts = 0 → (World.run L World.init calls).binds v.mountPath = 0) := by
  have hinit : Agree L (fun m => ∃ c ∈ calls, c.name = m) World.init := by
    refine ⟨?_, ?_, ?_⟩
    · intro m x hx
      cases hx
    · intro m _
      exact ⟨fun x hx => (by cases hx), rfl⟩
    · intro p _
      rfl
  have hinj2 : ∀ a b, (∃ c ∈ calls, c.name = a) → (∃ c ∈ calls, c.name = b) →
      L.join L.DefaultDockerRootDirectory a = L.join L.DefaultDockerRootDirectory b →
      a = b := by
    rintro a b ⟨c1, hc1, rfl⟩ ⟨c2, hc2, rfl⟩ e
    exact hinj c1 hc1 c2 hc2 e
  obtain ⟨ha, hb, hc⟩ := run_agree L _ hinj2 calls World.init (fun c hc => ⟨c, hc, rfl⟩) hq hinit
  obtain ⟨h1, h2⟩ := hb n (ha n v hv)
  rw [hv] at h2
  obtain ⟨_, a2, a3⟩ := h1 v hv
  constructor
  · intro hpos
    rw [a3 hpos, h2]
    simp [hpos]
  · intro hz
    rcases a2 with a2 | a2
    · rw [a2]
      apply hc
      rintro m ⟨c, hcm, rfl⟩
      exact hne c hcm
    · rw [a2, h2]
      simp [hz]

theorem binds_agree_of_quiet_witness :
    (World.run plainLib World.init
        [Call.create "x" okSession none, Call.mount "x" "c1" okMount,
          Call.mount "x" "c2" okMount, Call.unmount "x" "c1" none]).driver.volumes "x" =
        some ⟨"x", "c1", "/var/lib/docker-volumes/x", 1⟩ ∧
      (((0 : Int) < (⟨"x", "c1", "/var/lib/docker-volumes/x", 1⟩ : Volume).mounts →
        (World.run plainLib World.init
          [Call.create "x" okSession none, Call.mount "x" "c1" okMount,
            Call.mount "x" "c2" okMount, Call.unmount "x" "c1" none]).binds
          (⟨"x", "c1", "/var/lib/docker-volumes/x", 1⟩ : Volume).mountPath = 1) ∧
      ((⟨"x", "c1", "/var/lib/docker-volumes/x", 1⟩ : Volume).mounts = 0 →
        (World.run plainLib World.init
          [Call.create "x" okSession none, Call.mount "x" "c1" okMount,
            Call.mount "x" "c2" okMount, Call.unmount "x" "c1" none]).binds
          (⟨"x", "c1", "/var/lib/docker-volumes/x", 1⟩ : Volume).mountPath = 0)) :=
  ⟨by decide,
    binds_agree_of_quiet plainLib
      [Call.create "x" okSession none, Call.mount "x" "c1" okMount,
        Call.mount "x" "c2" okMount, Call.unmount "x" "c1" none]
      (by decide) (by decide) (by decide) "x" ⟨"x", "c1", "/var/lib/docker-volumes/x", 1⟩
      (by decide)⟩

/-! ## C11: the mountpoint of `Mount` -/

/-- C11: in every state reachable from the empty catalog, a `Mount(name, id)`
call that succeeds returns the mountpoint `Path(name)` returns, every bind it
invokes gets that mountpoint as local path and `path.Join("/docker", name)` as
remote path, and the local path stored for `name` after `add` is that
mountpoint too, so that the stored path used after a conflict is the same. -/
theorem Mount_returns_Path (L : Lib) (pre : List Call) (name ID : String)
    (o : MountAnswers) :
    (∀ mp, ((run L Driver.empty pre).Mount L name ID o).reply = Reply.mountpoint mp →
        mp = (run L Driver.empty pre).Path L name) ∧
      (∀ e ∈ ((run L Driver.empty pre).Mount L name ID o).events,
        e = Event.bind ((run L Driver.empty pre).Path L name) (L.join baseDir name) o.bind) ∧
      (∀ v, ((run L Driver.empty pre).add name ID
          (L.join L.DefaultDockerRootDirectory name) 1).1.volumes name = some v →
        v.mountPath = (run L Driver.empty pre).Path L name) := by
  have hd := reachable_pathsComputed L pre
  generalize run L Driver.empty pre = d at hd ⊢
  have ht := mountTarget_of_pathsComputed L d name ID hd
  refine ⟨?_, ?_, ?_⟩
  · intro mp h
    rw [Mount_reply, ht] at h
    cases hE : ensureDir o with
    | some e => simp [hE] at h
    | none =>
      cases hv : (d.add name ID (L.join L.DefaultDockerRootDirectory name) 1).1.volumes name with
      | none => simp [hE, hv] at h
      | some v =>
        by_cases hm : v.mounts ≤ 1
        · cases hb : o.bind with
          | some e => simp [hE, hv, hm, hb] at h
          | none =>
            simp [hE, hv, hm, hb] at h
            exact h.symm
        · simp [hE, hv, hm] at h
          exact h.symm
  · intro e he
    rw [Mount_events, ht] at he
    split at he
    · simpa using he
    · cases he
  · intro v hv
    show v.mountPath = L.join L.DefaultDockerRootDirectory name
    cases hn : d.volumes name with
    | none =>
      rw [add_volumes_absent d name ID _ 1 hn] at hv
      cases hv
      rfl
    | some w =>
      rw [add_volumes_known d name ID _ 1 w hn] at hv
      cases hv
      show (if w.mountPath = "" then _ else w.mountPath) = _
      by_cases h2 : w.mountPath = ""
      · simp [h2]
      · simp only [if_neg h2]
        rcases hd name w hn with h1 | h1
        · exact absurd h1 h2
        · exact h1

theorem Mount_returns_Path_witness :
    ((run plainLib Driver.empty [Call.mount "data" "c1" okMount]).add "data" "c2"
        "/var/lib/docker-volumes/data" 1).2 = some (Error.idMismatch "c1" "c2") ∧
      ((run plainLib Driver.empty [Call.mount "data" "c1" okMount]).Mount plainLib
        "data" "c2" okMount).reply = Reply.mountpoint "/var/lib/docker-volumes/data" ∧
      "/var/lib/docker-volumes/data" =
        (run plainLib Driver.empty [Call.mount "data" "c1" okMount]).Path plainLib "data" :=
  ⟨by decide, by decide,
    (Mount_returns_Path plainLib [Call.mount "data" "c1" okMount] "data" "c2" okMount).1
      "/var/lib/docker-volumes/data" (by decide)⟩

/-! ## C12: the catalog after `Remove` -/

/-- C12: for every catalog state and name, once the backend session is there:
if the removal of the directory succeeds, `Remove(name)` returns no error and
the catalog has no record for `name` afterwards, whatever its refcount was; if
the removal fails, `Remove` returns that error and the catalog is unchanged. -/
theorem Remove_outcome (d : Driver) (name : String) (s : SessionAnswers)
    (removeDir : Option Error) (hs : createMountInfo s = none) :
    (removeDir = none →
        (d.Remove name s removeDir).reply = Reply.done ∧
          (d.Remove name s removeDir).driver.volumes name = none) ∧
      (∀ e, removeDir = some e →
        (d.Remove name s removeDir).reply = Reply.failed e ∧
          (d.Remove name s removeDir).driver = d) := by
  constructor
  · intro hr
    subst hr
    constructor
    · unfold Driver.Remove
      cases hv : d.volumes name <;> simp [hs]
    · rw [Remove_driver]
      simp [hs, Driver.delete]
  · intro e hr
    subst hr
    constructor
    · unfold Driver.Remove
      simp [hs]
    · rw [Remove_driver]
      simp

theorem Remove_outcome_witness :
    createMountInfo okSession = none ∧
      refcount (run plainLib Driver.empty [Call.mount "data" "c1" okMount]) "data" = some 1 ∧
      ((run plainLib Driver.empty [Call.mount "data" "c1" okMount]).Remove
          "data" okSession none).reply = Reply.done ∧
      ((run plainLib Driver.empty [Call.mount "data" "c1" okMount]).Remove
          "data" okSession none).driver.volumes "data" = none :=
  ⟨by decide, by decide,
    (Remove_outcome (run plainLib Driver.empty [Call.mount "data" "c1" okMount]) "data"
      okSession none (by decide)).1 rfl⟩

/-! ## C13: the volumes of `List` -/

theorem listLoop_entries (d : Driver) (names : List String) (tail : List ReadAnswer)
    (htail : ∀ x, tail.head? = some x → x.isEntry = false) :
    ∀ acc : List volume.Volume,
      d.listLoop (names.map ReadAnswer.entry ++ tail) acc =
        acc ++ (names.filter (fun n => decide (n ≠ "." ∧ n ≠ ".."))).map (listed d) := by
  induction names with
  | nil =>
    intro acc
    cases tail with
    | nil => simp [Driver.listLoop]
    | cons x xs =>
      cases x with
      | entry n => simpa [ReadAnswer.isEntry] using htail (ReadAnswer.entry n) rfl
      | eod => simp [Driver.listLoop]
      | error e => simp [Driver.listLoop]
  | cons n ns ih =>
    intro acc
    have hstep : d.listLoop ((n :: ns).map ReadAnswer.entry ++ tail) acc =
        if n ≠ "." ∧ n ≠ ".." then
          d.listLoop (ns.map ReadAnswer.entry ++ tail) (acc ++ [listed d n])
        else d.listLoop (ns.map ReadAnswer.entry ++ tail) acc := by
      show d.listLoop (ReadAnswer.entry n :: (ns.map ReadAnswer.entry ++ tail)) acc = _
      rw [Driver.listLoop]
      cases hv : d.volumes n <;> simp [listed, hv]
    rw [hstep]
    by_cases hn : n ≠ "." ∧ n ≠ ".."
    · rw [if_pos hn, ih, List.filter_cons_of_pos (by simpa using hn), List.map_cons,
        List.append_assoc]
      rfl
    · rw [if_neg hn, ih, List.filter_cons_of_neg (by simpa using hn)]

/-- C13: for every catalog state and every finite sequence of entry names the
backend enumerates under the base directory (up to the first answer that is
not an entry), `List` returns, in that order, one volume per entry whose name
is neither `.` nor `..`, with the name of the entry and, as mountpoint, the
stored local path of the record of that name, or the empty string when there
is no record; the catalog is unchanged. -/
theorem List_reports_entries (d : Driver) (s : SessionAnswers) (names : List String)
    (tail : List ReadAnswer) (hs : createMountInfo s = none)
    (htail : ∀ x, tail.head? = some x → x.isEntry = false) :
    d.List ⟨s, none, names.map ReadAnswer.entry ++ tail⟩ =
      (d, ListReply.volumes
        ((names.filter (fun n => decide (n ≠ "." ∧ n ≠ ".."))).map (listed d))) := by
  unfold Driver.List
  simp only [hs]
  rw [listLoop_entries d names tail htail []]
  rfl

theorem List_reports_entries_witness :
    createMountInfo okSession = none ∧
      ((run plainLib Driver.empty [Call.mount "data" "c1" okMount]).List
        ⟨okSession, none,
          [".", "..", "data", "ghost"].map ReadAnswer.entry ++ [ReadAnswer.eod]⟩).2 =
        ListReply.volumes [⟨"data", "/var/lib/docker-volumes/data"⟩, ⟨"ghost", ""⟩] :=
  ⟨by decide,
    (congrArg Prod.snd (List_reports_entries
      (run plainLib Driver.empty [Call.mount "data" "c1" okMount]) okSession
      [".", "..", "data", "ghost"] [ReadAnswer.eod] (by decide) (by decide))).trans
      (by decide)⟩

/-! ## C14: the outcome of `Get` -/

/-- C14, as stated, fails: when navigating into `v1` leaves the current
directory of the backend at `/backup/v1`, which is not `/docker/v1`, `Get`
does not fail: it returns the volume. -/
theorem Get_succeeds_elsewhere :
    "/backup/v1" ≠ plainLib.join baseDir "v1" ∧
      Driver.empty.Get plainLib "v1" okSession "/backup/v1" =
        GetReply.volume ⟨"v1", "/var/lib/docker-volumes/v1"⟩ := by
  decide

/-- C14, amended: for every name, once the backend session is there, `Get(name)`
fails with a not-found error exactly when the current directory of the backend
after navigating into `name` is still the base directory; in every other case
it returns `name` and the mountpoint `path.Join(mount root, name)`, whatever
the catalog holds. -/
theorem Get_outcome (L : Lib) (d : Driver) (name : String) (s : SessionAnswers)
    (cwd : String) (hs : createMountInfo s = none) :
    (cwd = baseDir → d.Get L name s cwd = GetReply.failed (Error.notFound name)) ∧
      (cwd ≠ baseDir →
        d.Get L name s cwd =
          GetReply.volume ⟨name, L.join L.DefaultDockerRootDirectory name⟩) := by
  unfold Driver.Get
  simp only [hs]
  constructor
  · intro h
    rw [if_pos h]
  · intro h
    rw [if_neg h]

theorem Get_outcome_witness :
    createMountInfo okSession = none ∧
      ("/docker" : String) = baseDir ∧
      Driver.empty.Get plainLib "v1" okSession "/docker" =
        GetReply.failed (Error.notFound "v1") ∧
      ("/docker/v1" : String) ≠ baseDir ∧
      (run plainLib Driver.empty [Call.mount "v1" "c1" okMount]).Get plainLib "v1" okSession
          "/docker/v1" =
        GetReply.volume ⟨"v1", plainLib.join plainLib.DefaultDockerRootDirectory "v1"⟩ :=
  ⟨by decide, by decide,
    (Get_outcome plainLib Driver.empty "v1" okSession "/docker" (by decide)).1 (by decide),
    by decide,
    (Get_outcome plainLib (run plainLib Driver.empty [Call.mount "v1" "c1" okMount]) "v1"
      okSession "/docker/v1" (by decide)).2 (by decide)⟩

/-! ## C16: directory creation in `Mount` -/

/-- C16, as stated, fails: when the first `Mkdir` of the mountpoint answers
`ENOENT` and the `Mkdir` of the mount root answers `EEXIST`, or the second
`Mkdir` of the mountpoint does, `Mount` does not go on to the bind decision: it
returns that "already exists" error and calls no primitive.  An `EEXIST` of the
first `Mkdir` is taken as success. -/
theorem Mount_fails_on_existing_directory :
    isExist 17 = true ∧
      (Driver.empty.Mount plainLib "x" "c1" rootExists).reply = Reply.failed (Error.sys 17) ∧
      (Driver.empty.Mount plainLib "x" "c1" rootExists).events = [] ∧
      (Driver.empty.Mount plainLib "x" "c1" mountpointAppears).reply =
        Reply.failed (Error.sys 17) ∧
      (Driver.empty.Mount plainLib "x" "c1" mountpointAppears).events = [] ∧
      (Driver.empty.Mount plainLib "x" "c1" ⟨some 17, none, none, none⟩).reply =
        Reply.mountpoint "/var/lib/docker-volumes/x" := by
  decide

theorem ensureDir_eq_none_iff (o : MountAnswers) :
    ensureDir o = none ↔
      o.mkdir1 = none ∨
        (∃ e, o.mkdir1 = some e ∧ isNotExist e = false ∧ isExist e = true) ∨
        (∃ e, o.mkdir1 = some e ∧ isNotExist e = true ∧ o.mkdirRoot = none ∧
          o.mkdir2 = none) := by
  unfold ensureDir
  cases h1 : o.mkdir1 with
  | none => simp
  | some e1 =>
    cases hn : isNotExist e1 with
    | true =>
      cases h2 : o.mkdirRoot with
      | some e2 => simp [hn]
      | none => cases h3 : o.mkdir2 <;> simp [hn]
    | false => cases hx : isExist e1 <;> simp [hn, hx]

theorem ensureDir_eq_some (o : MountAnswers) (e : Errno) (h : ensureDir o = some e) :
    (o.mkdir1 = some e ∧ isNotExist e = false ∧ isExist e = false) ∨
      ∃ e1, o.mkdir1 = some e1 ∧ isNotExist e1 = true ∧
        (o.mkdirRoot = some e ∨ (o.mkdirRoot = none ∧ o.mkdir2 = some e)) := by
  unfold ensureDir at h
  cases h1 : o.mkdir1 with
  | none => simp [h1] at h
  | some e1 =>
    cases hn : isNotExist e1 with
    | true =>
      right
      refine ⟨e1, rfl, hn, ?_⟩
      cases h2 : o.mkdirRoot with
      | some e2 =>
        simp [h1, hn, h2] at h
        exact Or.inl (congrArg some h)
      | none =>
        cases h3 : o.mkdir2 with
        | some e3 =>
          simp [h1, hn, h2, h3] at h
          exact Or.inr ⟨rfl, congrArg some h⟩
        | none => simp [h1, hn, h2, h3] at h
    | false =>
      left
      cases hx : isExist e1 with
      | true => simp [h1, hn, hx] at h
      | false =>
        simp [h1, hn, hx] at h
        subst h
        exact ⟨rfl, hn, hx⟩

/-- C16, amended: `Mount` goes on to the bind decision, exactly as when the
first `Mkdir` of the mountpoint succeeds, if and only if that `Mkdir` succeeds,
or answers "already exists", or answers "not exists" and then both the `Mkdir`
of the mount root and the second `Mkdir` of the mountpoint succeed; otherwise
it fails at directory creation, without calling a primitive, with the error of
the first `Mkdir` if that is neither "not exists" nor "already exists", or with
whatever error the `Mkdir` of the mount root or the second `Mkdir` of the
mountpoint answered, "already exists" included. -/
theorem Mount_directory_creation (L : Lib) (d : Driver) (name ID : String)
    (o : MountAnswers) :
    (ensureDir o = none ↔
        o.mkdir1 = none ∨
          (∃ e, o.mkdir1 = some e ∧ isNotExist e = false ∧ isExist e = true) ∨
          (∃ e, o.mkdir1 = some e ∧ isNotExist e = true ∧ o.mkdirRoot = none ∧
            o.mkdir2 = none)) ∧
      (ensureDir o = none →
        (d.Mount L name ID o).reply =
            (d.Mount L name ID ⟨none, o.mkdirRoot, o.mkdir2, o.bind⟩).reply ∧
          (d.Mount L name ID o).events =
            (d.Mount L name ID ⟨none, o.mkdirRoot, o.mkdir2, o.bind⟩).events) ∧
      (∀ e, ensureDir o = some e →
        (d.Mount L name ID o).reply = Reply.failed (Error.sys e) ∧
          (d.Mount L name ID o).events = [] ∧
          ((o.mkdir1 = some e ∧ isNotExist e = false ∧ isExist e = false) ∨
            ∃ e1, o.mkdir1 = some e1 ∧ isNotExist e1 = true ∧
              (o.mkdirRoot = some e ∨ (o.mkdirRoot = none ∧ o.mkdir2 = some e)))) := by
  refine ⟨ensureDir_eq_none_iff o, ?_, ?_⟩
  · intro h
    have h0 : ensureDir ⟨none, o.mkdirRoot, o.mkdir2, o.bind⟩ = none := rfl
    constructor
    · rw [Mount_reply, Mount_reply, h, h0]
    · rw [Mount_events, Mount_events, h, h0]
  · intro e h
    refine ⟨?_, ?_, ensureDir_eq_some o e h⟩
    · rw [Mount_reply, h]
    · rw [Mount_events, h]
      simp

theorem Mount_directory_creation_witness :
    (ensureDir ⟨some 17, none, none, none⟩ = none ∧
      (Driver.empty.Mount plainLib "x" "c1" ⟨some 17, none, none, none⟩).reply =
        (Driver.empty.Mount plainLib "x" "c1" ⟨none, none, none, none⟩).reply ∧
      (Driver.empty.Mount plainLib "x" "c1" ⟨some 17, none, none, none⟩).events =
        (Driver.empty.Mount plainLib "x" "c1" ⟨none, none, none, none⟩).events) ∧
      (ensureDir rootExists = some 17 ∧
        (Driver.empty.Mount plainLib "x" "c1" rootExists).reply = Reply.failed (Error.sys 17) ∧
        (Driver.empty.Mount plainLib "x" "c1" rootExists).events = []) :=
  ⟨⟨by decide,
      (Mount_directory_creation plainLib Driver.empty "x" "c1"
        ⟨some 17, none, none, none⟩).2.1 (by decide)⟩,
    ⟨by decide,
      ((Mount_directory_creation plainLib Driver.empty "x" "c1" rootExists).2.2 17
        (by decide)).1,
      ((Mount_directory_creation plainLib Driver.empty "x" "c1" rootExists).2.2 17
        (by decide)).2.1⟩⟩

/-! ## C17: `Create` and a failing backend -/

/-- C17: for every catalog state and name, when the backend session is there and
the creation of the directory fails, `Create` returns that error and the
catalog is the one `add(name, "", "", 0)` left: a new record for a name that
had none, a changed refcount for a name that had one, so it differs from the
catalog before; when the session itself fails, `Create` returns that error and
the catalog is unchanged. -/
theorem Create_keeps_add_on_backend_failure (d : Driver) (name : String)
    (s : SessionAnswers) (makeDir : Option Error) :
    (createMountInfo s = none → ∀ e, makeDir = some e →
        (d.Create name s makeDir).reply = Reply.failed e ∧
          (d.Create name s makeDir).driver = (d.add name "" "" 0).1 ∧
          (d.volumes name = none →
            (d.Create name s makeDir).driver.volumes name = some ⟨name, "", "", 0⟩) ∧
          (∀ v, d.volumes name = some v →
            refcount (d.Create name s makeDir).driver name = some (v.mounts + 1)) ∧
          (d.Create name s makeDir).driver.volumes name ≠ d.volumes name) ∧
      (∀ e, createMountInfo s = some e →
        (d.Create name s makeDir).reply = Reply.failed e ∧
          (d.Create name s makeDir).driver = d) := by
  constructor
  · intro hs e hm
    subst hm
    have hdrv : (d.Create name s (some e)).driver = (d.add name "" "" 0).1 := by
      rw [Create_driver, if_pos hs]
    have hrep : (d.Create name s (some e)).reply = Reply.failed e := by
      unfold Driver.Create
      have he := add_error_empty d name 0
      rcases ha : d.add name "" "" 0 with ⟨d1, e1⟩
      rw [ha] at he
      simp only at he
      subst he
      simp [hs]
    refine ⟨hrep, hdrv, ?_, ?_, ?_⟩
    · intro hn
      rw [hdrv]
      exact add_volumes_absent d name "" "" 0 hn
    · intro v hv
      rw [hdrv]
      unfold refcount
      rw [add_volumes_known d name "" "" 0 v hv]
      rfl
    · rw [hdrv]
      cases hn : d.volumes name with
      | none =>
        rw [add_volumes_absent d name "" "" 0 hn]
        simp
      | some v =>
        rw [add_volumes_known d name "" "" 0 v hn]
        intro hc
        have hm := congrArg Volume.mounts (Option.some.inj hc)
        simp only at hm
        omega
  · intro e hs
    constructor
    · unfold Driver.Create
      simp [hs]
    · rw [Create_driver]
      simp [hs]

theorem Create_keeps_add_on_backend_failure_witness :
    (createMountInfo okSession = none ∧
      (Driver.empty.Create "data" okSession (some (Error.ceph (-17)))).reply =
        Reply.failed (Error.ceph (-17)) ∧
      (Driver.empty.Create "data" okSession (some (Error.ceph (-17)))).driver.volumes "data" =
        some ⟨"data", "", "", 0⟩) ∧
      (createMountInfo noSession = some (Error.ceph (-108)) ∧
        (Driver.empty.Create "data" noSession none).reply = Reply.failed (Error.ceph (-108)) ∧
        (Driver.empty.Create "data" noSession none).driver = Driver.empty) :=
  ⟨⟨by decide,
      ((Create_keeps_add_on_backend_failure Driver.empty "data" okSession
        (some (Error.ceph (-17)))).1 (by decide) (Error.ceph (-17)) rfl).1,
      ((Create_keeps_add_on_backend_failure Driver.empty "data" okSession
        (some (Error.ceph (-17)))).1 (by decide) (Error.ceph (-17)) rfl).2.2.1 rfl⟩,
    ⟨by decide,
      (Create_keeps_add_on_backend_failure Driver.empty "data" noSession none).2
        (Error.ceph (-108)) (by decide)⟩⟩

/-! ## C18: the records of the other names -/

/-- C18: for every catalog state and every `Create`, `Mount`, `Unmount` or
`Remove` call on a name `n`, whatever its outcome, the record of every other
name `m ≠ n` is unchanged: absent if it was absent, and the same record, with
the same name, client ID, local path and refcount, if it was present. -/
theorem other_records_unchanged (L : Lib) (d : Driver) (c : Call) (m : String)
    (h : m ≠ c.name) : (step L d c).driver.volumes m = d.volumes m :=
  step_volumes_other L d c m h

theorem other_records_unchanged_witness :
    "y" ≠ (Call.remove "x" okSession none).name ∧
      (run plainLib Driver.empty
        [Call.mount "x" "c1" okMount, Call.mount "y" "c2" okMount]).volumes "x" =
        some ⟨"x", "c1", "/var/lib/docker-volumes/x", 1⟩ ∧
      (step plainLib (run plainLib Driver.empty
        [Call.mount "x" "c1" okMount, Call.mount "y" "c2" okMount])
        (Call.remove "x" okSession none)).driver.volumes "y" =
        (run plainLib Driver.empty
          [Call.mount "x" "c1" okMount, Call.mount "y" "c2" okMount]).volumes "y" :=
  ⟨by decide, by decide,
    other_records_unchanged plainLib
      (run plainLib Driver.empty [Call.mount "x" "c1" okMount, Call.mount "y" "c2" okMount])
      (Call.remove "x" okSession none) "y" (by decide)⟩

end CephFS
